import Mathlib

/-!
Slash-command dispatcher of the Jitsi plugin (`server/command.go`).

A shallow embedding of `ExecuteCommand` and of the three handlers it routes to
(`executeStartMeetingCommand`, `executeHelpCommand`, `executeSettingsCommand`).

* Go strings are modelled by Lean strings (sequences of Unicode code points, i.e. the
  valid UTF-8 Go strings); the three `strings` functions the file uses are written out below.
* The collaborators of the plugin (`p.API`, the i18n bundle `p.b`, the settings store, the
  meeting subsystem) are fields of `Plugin`: arbitrary functions, so a theorem about every
  `Plugin` is a theorem about every outcome of every collaborator call.
* Every call of a collaborator is appended to `World.trace`; the settings store is `World.store`.
-/

namespace Jitsi

/-! ## The Go standard library functions used by `command.go` -/

/-- Go `unicode.IsSpace`: in Latin-1 the characters `\t \n \v \f \r`, space, U+0085 and U+00A0;
above Latin-1 the code points with the `White_Space` property. -/
def isSpace (c : Char) : Bool :=
  let n := c.toNat
  (9 ≤ n && n ≤ 13) || n == 0x20 || n == 0x85 || n == 0xA0 || n == 0x1680 ||
  (0x2000 ≤ n && n ≤ 0x200A) || n == 0x2028 || n == 0x2029 || n == 0x202F ||
  n == 0x205F || n == 0x3000

/-- The scanning loop of Go `strings.Fields`: `cur` holds the characters of the field being
read, most recent first; a white space character closes a non-empty field. -/
def fieldsAux : List Char → List Char → List (List Char)
  | [], cur => if cur.isEmpty then [] else [cur.reverse]
  | c :: cs, cur =>
    if isSpace c then
      if cur.isEmpty then fieldsAux cs [] else cur.reverse :: fieldsAux cs []
    else fieldsAux cs (c :: cur)

/-- Go `strings.Fields`: the maximal runs of non-space characters of `s`, in order; the empty
list when `s` is empty or all white space. -/
def Fields (s : String) : List String :=
  (fieldsAux s.data []).map String.mk

/-- Go `strings.TrimSpace` on a list of characters: leading and trailing white space removed. -/
def trimSpaceChars (l : List Char) : List Char :=
  ((l.dropWhile isSpace).reverse.dropWhile isSpace).reverse

/-- Go `strings.TrimSpace`. -/
def TrimSpace (s : String) : String :=
  String.mk (trimSpaceChars s.data)

/-- Go `strings.TrimPrefix` on lists of characters. -/
def trimPrefixChars (l pre : List Char) : List Char :=
  if pre.isPrefixOf l then l.drop pre.length else l

/-- Go `strings.TrimPrefix`: `s` without the leading `pre` when `s` starts with it, else `s`. -/
def TrimPrefix (s pre : String) : String :=
  String.mk (trimPrefixChars s.data pre.data)

/-- Go `strings.ReplaceAll(s, "|", "\x60")`, the only replacement the file performs: every
vertical bar becomes a backtick. -/
def ReplaceAllBarBacktick (s : String) : String :=
  String.mk (s.data.map fun c => if c = '|' then Char.ofNat 96 else c)

/-- Go `fmt.Sprintf("%v", b)` for a boolean. -/
def sprintBool (b : Bool) : String :=
  if b then "true" else "false"

/-- Go `fmt.Sprintf(pre ++ "%s", e)` for an error value `e`, modelled by its `Error()` text.
A nil `*model.AppError` is formatted by `fmt` as `<nil>`. -/
def sprintErr (pre : String) (e : Option String) : String :=
  pre ++ e.getD "<nil>"

/-! ## Constants of `command.go` -/

def jitsiCommand : String := "jitsi"
def jitsiSettingsSeeCommand : String := "see"
def jitsiStartCommand : String := "start"
def valueTrue : String := "true"
def valueFalse : String := "false"
def commandArgShowPrejoinPage : String := "show_prejoin_page"
def commandArgEmbedded : String := "embedded"
def commandArgNamingScheme : String := "naming_scheme"

/-- Modelled from the spec: the naming-scheme constant `jitsiNameSchemeAsk` is declared outside
`command.go`; the spec gives the enum member `ask`. -/
def jitsiNameSchemeAsk : String := "ask"
/-- Modelled from the spec: the naming-scheme constant `jitsiNameSchemeWords` is declared
outside `command.go`; the spec gives the enum member `words`. -/
def jitsiNameSchemeWords : String := "words"
/-- Modelled from the spec: the naming-scheme constant `jitsiNameSchemeUUID` is declared outside
`command.go`; the spec gives the enum member `uuid`. -/
def jitsiNameSchemeUUID : String := "uuid"
/-- Modelled from the spec: the naming-scheme constant `jitsiNameSchemeMattermost` is declared
outside `command.go`; the spec gives the enum member `mattermost`. -/
def jitsiNameSchemeMattermost : String := "mattermost"

/-! ## Data model -/

/-- Modelled from the spec: the per-user settings record `UserConfig` is declared outside
`command.go`; the spec gives its three fields. -/
structure UserConfig where
  Embedded : Bool
  ShowPrejoinPage : Bool
  NamingScheme : String
deriving DecidableEq, Repr

/-- The fields of `model.CommandArgs` that the file reads. -/
structure CommandArgs where
  UserId : String
  ChannelId : String
  RootId : String
  Command : String
deriving DecidableEq, Repr

/-- The fields of `model.CommandResponse` that the file sets; `{}` is the empty response. -/
structure CommandResponse where
  ResponseType : String := ""
  ChannelId : String := ""
  Text : String := ""
deriving DecidableEq, Repr

/-- The fields of `model.AppError` that the file sets. -/
structure AppError where
  Message : String
  DetailedError : String
deriving DecidableEq, Repr

/-- The fields of `model.Post` that the file sets. -/
structure Post where
  UserId : String
  ChannelId : String
  Message : String
  RootId : String
deriving DecidableEq, Repr

/-- A `*model.User` as returned by `p.API.GetUser`; the file only passes it on. -/
structure User where
  Id : String
deriving DecidableEq, Repr

/-- A `*model.Channel` as returned by `p.API.GetChannel`; the file only passes it on. -/
structure Channel where
  Id : String
deriving DecidableEq, Repr

/-- An `i18n.LocalizeConfig` as the file builds it: the `ID` and `Other` text of its
`DefaultMessage`, and the `TemplateData` entries in the order they are written. -/
structure LocalizeConfig where
  ID : String
  Other : String
  TemplateData : List (String × String) := []
deriving DecidableEq, Repr

/-- One call of a collaborator, with its arguments. -/
inductive Call where
  | GetUser (userID : String)
  | GetChannel (channelID : String)
  | getUserConfig (userID : String)
  | setUserConfig (userID : String) (config : UserConfig)
  | askMeetingType (user : User) (channel : Channel) (rootID : String)
  | startMeeting (user : User) (channel : Channel) (meetingID : String) (meetingTopic : String)
      (personal : Bool) (rootID : String)
  | trackMeeting (args : CommandArgs)
  | SendEphemeralPost (userID : String) (post : Post)
  | Debug (msg : String)
deriving DecidableEq, Repr

/-- The plugin `p` seen from `command.go`: its bot id and the behaviour of each collaborator.
Errors are modelled by their `Error()` text. `S` is the state of the per-user settings store;
only `setUserConfig` changes it. -/
structure Plugin (S : Type) where
  botID : String
  GetUser : String → Except String User
  GetChannel : String → Except String Channel
  getUserConfig : S → String → Except String UserConfig
  setUserConfig : S → String → UserConfig → Option String × S
  askMeetingType : User → Channel → String → Option String
  startMeeting : User → Channel → String → String → Bool → String → Except String String
  GetUserLocalizer : String → String
  LocalizeWithConfig : String → LocalizeConfig → String

/-- What an invocation can change: the settings store and the log of collaborator calls
(chronological). -/
structure World (S : Type) where
  store : S
  trace : List Call

/-- Record a collaborator call. -/
def World.log {S : Type} (w : World S) (c : Call) : World S :=
  { w with trace := w.trace ++ [c] }

/-- The Go result pair `(*model.CommandResponse, *model.AppError)`. -/
abbrev Result := CommandResponse × Option AppError

/-- The value of `model.CommandResponseTypeEphemeral`. -/
def CommandResponseTypeEphemeral : String := "ephemeral"

/-! ## The functions of `command.go` -/

/-- Go function `startMeetingError` (lines 27-36). -/
def startMeetingError (channelID : String) (detailedError : String) : Result :=
  ({ ResponseType := CommandResponseTypeEphemeral,
     ChannelId := channelID,
     Text := "We could not start a meeting at this time." },
   some { Message := "We could not start a meeting at this time.",
          DetailedError := detailedError })

/-- The topic computed at the head of `executeStartMeetingCommand` (lines 142-143): the
variable `input` after its two assignments. -/
def startMeetingInput (command : String) : String :=
  let input := TrimSpace ( TrimPrefix command ("/" ++ jitsiCommand))
  let input := TrimSpace ( TrimPrefix input jitsiStartCommand)
  input

/-- Go function `executeStartMeetingCommand` (lines 141-173). -/
def executeStartMeetingCommand {S : Type} (p : Plugin S) (w : World S) (args : CommandArgs) :
    Result × World S :=
  let input := startMeetingInput args.Command
  let w := w.log (.GetUser args.UserId)
  match p.GetUser args.UserId with
  | .error appErr =>
    (startMeetingError args.ChannelId (sprintErr "getUser() threw error: " (some appErr)), w)
  | .ok user =>
    let w := w.log (.GetChannel args.ChannelId)
    match p.GetChannel args.ChannelId with
    | .error appErr =>
      (startMeetingError args.ChannelId (sprintErr "getChannel() threw error: " (some appErr)), w)
    | .ok channel =>
      -- from here on `appErr` is the nil `*model.AppError`
      let appErr : Option String := none
      let w := w.log (.getUserConfig args.UserId)
      match p.getUserConfig w.store args.UserId with
      | .error err =>
        (startMeetingError args.ChannelId (sprintErr "getChannel() threw error: " (some err)), w)
      | .ok userConfig =>
        if userConfig.NamingScheme = jitsiNameSchemeAsk ∧ input = "" then
          let w := w.log (.askMeetingType user channel args.RootId)
          match p.askMeetingType user channel args.RootId with
          | some _ =>
            (startMeetingError args.ChannelId (sprintErr "startMeeting() threw error: " appErr), w)
          | none =>
            let w := w.log (.trackMeeting args)
            (({}, none), w)
        else
          let w := w.log (.startMeeting user channel "" input false args.RootId)
          match p.startMeeting user channel "" input false args.RootId with
          | .error _ =>
            (startMeetingError args.ChannelId (sprintErr "startMeeting() threw error: " appErr), w)
          | .ok _ =>
            let w := w.log (.trackMeeting args)
            (({}, none), w)

/-- The default text of the message `jitsi.command.help.title` (lines 180-181). -/
def helpTitleOther : String :=
  "###### Mattermost Jitsi Plugin - Slash Command help\n"

/-- The default text of the message `jitsi.command.help.text` (lines 187-200). -/
def commandHelpOther : String :=
  "* |/jitsi| - Create a new meeting\n" ++
  "* |/jitsi start [topic]| - Create a new meeting with specified topic\n" ++
  "* |/jitsi help| - Show this help text\n" ++
  "* |/jitsi settings see| - View your current user settings for the Jitsi plugin\n" ++
  "* |/jitsi settings [setting] [value]| - Update your user settings (see below for options)\n" ++
  "\n" ++
  "###### Jitsi Settings:\n" ++
  "* |/jitsi settings embedded [true/false]|: (Experimental) When true, Jitsi meeting is embedded as a floating window inside Mattermost. When false, Jitsi meeting opens in a new window.\n" ++
  "* |/jitsi settings show_prejoin_page [true/false]|: When false, pre-join page will not be displayed when Jitsi meet is embedded inside Mattermost.\n" ++
  "* |/jitsi settings naming_scheme [words/uuid/mattermost/ask]|: Select how meeting names are generated with one of these options:\n" ++
  "    * |words|: Random English words in title case (e.g. PlayfulDragonsObserveCuriously)\n" ++
  "    * |uuid|: UUID (universally unique identifier)\n" ++
  "    * |mattermost|: Mattermost specific names. Combination of team name, channel name and random text in public and private channels; personal meeting name in direct and group messages channels.\n" ++
  "    * |ask|: The plugin asks you to select the name every time you start a meeting"

/-- Go function `executeHelpCommand` (lines 175-214). -/
def executeHelpCommand {S : Type} (p : Plugin S) (w : World S) (args : CommandArgs) :
    Result × World S :=
  let l := p.GetUserLocalizer args.UserId
  let helpTitle := p.LocalizeWithConfig l
    { ID := "jitsi.command.help.title", Other := helpTitleOther }
  let commandHelp := p.LocalizeWithConfig l
    { ID := "jitsi.command.help.text", Other := commandHelpOther }
  let text := helpTitle ++ ReplaceAllBarBacktick commandHelp
  let post : Post :=
    { UserId := p.botID, ChannelId := args.ChannelId, Message := text, RootId := args.RootId }
  let w := w.log (.SendEphemeralPost args.UserId post)
  (({}, none), w)

/-- Go function `settingsError` (lines 216-226). -/
def settingsError {S : Type} (p : Plugin S) (w : World S) (userID : String) (channelID : String)
    (errorText : String) (rootID : String) : Result × World S :=
  let post : Post :=
    { UserId := p.botID, ChannelId := channelID, Message := errorText, RootId := rootID }
  let w := w.log (.SendEphemeralPost userID post)
  (({}, none), w)

/-- The default text of the message `jitsi.command.settings.current_values` (lines 247-250). -/
def currentValuesOther : String :=
  "###### Jitsi Settings:\n" ++
  "* Embedded: |\x7b\x7b.Embedded\x7d\x7d|\n" ++
  "* Show Pre-join Page: |\x7b\x7b.ShowPrejoinPage\x7d\x7d|\n" ++
  "* Naming Scheme: |\x7b\x7b.NamingScheme\x7d\x7d|"

/-- The field switch of `executeSettingsCommand` (lines 278-336), on `parameters[0]` and
`parameters[1]`: the record after the switch (`none` is the Go `userConfig = nil`) and the
variable `text`. `getUserConfig` returns a fresh record, so the in-place assignments act on a
local copy. -/
def settingsSwitch {S : Type} (p : Plugin S) (l : String) (userConfig : UserConfig)
    (field value : String) : Option UserConfig × String :=
  if field = commandArgEmbedded then
    if value = valueTrue then (some { userConfig with Embedded := true }, "")
    else if value = valueFalse then (some { userConfig with Embedded := false }, "")
    else
      (none, p.LocalizeWithConfig l
        { ID := "jitsi.command.settings.wrong_embedded_value",
          Other := "Invalid \x60embedded\x60 value, use \x60true\x60 or \x60false\x60." })
  else if field = commandArgNamingScheme then
    if value = jitsiNameSchemeAsk then (some { userConfig with NamingScheme := "ask" }, "")
    else if value = jitsiNameSchemeWords then
      (some { userConfig with NamingScheme := "words" }, "")
    else if value = jitsiNameSchemeUUID then
      (some { userConfig with NamingScheme := "uuid" }, "")
    else if value = jitsiNameSchemeMattermost then
      (some { userConfig with NamingScheme := "mattermost" }, "")
    else
      (none, p.LocalizeWithConfig l
        { ID := "jitsi.command.settings.wrong_naming_scheme_value",
          Other := "Invalid \x60naming_scheme\x60 value, use \x60ask\x60, \x60words\x60, \x60uuid\x60 or \x60mattermost\x60." })
  else if field = commandArgShowPrejoinPage then
    if value = valueTrue then (some { userConfig with ShowPrejoinPage := true }, "")
    else if value = valueFalse then (some { userConfig with ShowPrejoinPage := false }, "")
    else
      (none, p.LocalizeWithConfig l
        { ID := "jitsi.command.settings.wrong_show_prejoin_page_value",
          Other := "Invalid \x60show_prejoin_page\x60 value, use \x60true\x60 or \x60false\x60." })
  else
    (none, p.LocalizeWithConfig l
      { ID := "jitsi.command.settings.wrong_field",
        Other := "Invalid config field, use \x60embedded\x60, \x60show_prejoin_page\x60 or \x60naming_scheme\x60." })

/-- Go function `executeSettingsCommand` (lines 228-367); the field switch is `settingsSwitch`. -/
def executeSettingsCommand {S : Type} (p : Plugin S) (w : World S) (args : CommandArgs)
    (parameters : List String) : Result × World S :=
  let l := p.GetUserLocalizer args.UserId
  let w := w.log (.getUserConfig args.UserId)
  match p.getUserConfig w.store args.UserId with
  | .error _ =>
    let w := w.log (.Debug "Unable to get user config")
    settingsError p w args.UserId args.ChannelId
      (p.LocalizeWithConfig l
        { ID := "jitsi.command.settings.unable_to_get", Other := "Unable to get user settings" })
      args.RootId
  | .ok userConfig =>
    if parameters.length = 0 ∨ parameters.head? = some jitsiSettingsSeeCommand then
      let text := p.LocalizeWithConfig l
        { ID := "jitsi.command.settings.current_values",
          Other := currentValuesOther,
          TemplateData :=
            [("Embedded", sprintBool userConfig.Embedded),
             ("ShowPrejoinPage", sprintBool userConfig.ShowPrejoinPage),
             ("NamingScheme", userConfig.NamingScheme)] }
      let post : Post :=
        { UserId := p.botID, ChannelId := args.ChannelId,
          Message := ReplaceAllBarBacktick text, RootId := args.RootId }
      let w := w.log (.SendEphemeralPost args.UserId post)
      (({}, none), w)
    else
      match parameters with
      | [field, value] =>
        match settingsSwitch p l userConfig field value with
        | (none, text) => settingsError p w args.UserId args.ChannelId text args.RootId
        | (some userConfig, _) =>
          let w := w.log (.setUserConfig args.UserId userConfig)
          match p.setUserConfig w.store args.UserId userConfig with
          | (some _, store) =>
            let w := { w with store := store }
            let w := w.log (.Debug "Unable to set user settings")
            settingsError p w args.UserId args.ChannelId
              (p.LocalizeWithConfig l
                { ID := "jitsi.command.settings.unable_to_set",
                  Other := "Unable to set user settings" })
              args.RootId
          | (none, store) =>
            let w := { w with store := store }
            let post : Post :=
              { UserId := p.botID, ChannelId := args.ChannelId,
                Message := p.LocalizeWithConfig l
                  { ID := "jitsi.command.settings.updated",
                    Other := "Jitsi settings updated:\n\n* " ++ field ++ ": \x60" ++ value ++ "\x60" },
                RootId := args.RootId }
            let w := w.log (.SendEphemeralPost args.UserId post)
            (({}, none), w)
      | _ =>
        -- `len(parameters) != 2`
        settingsError p w args.UserId args.ChannelId
          (p.LocalizeWithConfig l
            { ID := "jitsi.command.settings.invalid_parameters",
              Other := "Invalid settings parameters" })
          args.RootId

/-- Go function `ExecuteCommand` (lines 111-139). `none` is the run-time panic of `split[0]` on an empty
slice. -/
def ExecuteCommand {S : Type} (p : Plugin S) (w : World S) (args : CommandArgs) :
    Option (Result × World S) :=
  let split := Fields args.Command
  match split[0]? with
  | none => none
  | some command =>
    let action := if split.length > 1 then split.getD 1 "" else ""
    let parameters := if split.length > 2 then split.drop 2 else []
    if command ≠ "/" ++ jitsiCommand then
      some (({}, none), w)
    else if action = "help" then
      some (executeHelpCommand p w args)
    else if action = "settings" then
      some (executeSettingsCommand p w args parameters)
    else
      -- `case jitsiStartCommand: fallthrough` and `default`
      some (executeStartMeetingCommand p w args)

/-! ## Observations on a run -/

/-- The collaborator calls made by a run that started in `w` and ended with `r`. -/
def newCalls {S : Type} (w : World S) (r : Result × World S) : List Call :=
  r.2.trace.drop w.trace.length

/-- The `setUserConfig` calls of a trace: user id and record written, in order. -/
def setUserConfigCalls : List Call → List (String × UserConfig)
  | [] => []
  | .setUserConfig u c :: cs => (u, c) :: setUserConfigCalls cs
  | _ :: cs => setUserConfigCalls cs

/-- The `askMeetingType` calls of a trace, in order. -/
def askMeetingTypeCalls : List Call → List (User × Channel × String)
  | [] => []
  | .askMeetingType u c r :: cs => (u, c, r) :: askMeetingTypeCalls cs
  | _ :: cs => askMeetingTypeCalls cs

/-- The `startMeeting` calls of a trace, in order: user, channel, explicit meeting name, topic,
the boolean argument and the thread root. -/
def startMeetingCalls : List Call → List (User × Channel × String × String × Bool × String)
  | [] => []
  | .startMeeting u c m t b r :: cs => (u, c, m, t, b, r) :: startMeetingCalls cs
  | _ :: cs => startMeetingCalls cs

/-- The ephemeral posts of a trace, in order: addressee and post. -/
def ephemeralPosts : List Call → List (String × Post)
  | [] => []
  | .SendEphemeralPost u post :: cs => (u, post) :: ephemeralPosts cs
  | _ :: cs => ephemeralPosts cs

/-- The eight (field, value) pairs that the settings claims call valid. -/
def validPair (field value : String) : Prop :=
  (field = "embedded" ∧ (value = "true" ∨ value = "false")) ∨
  (field = "show_prejoin_page" ∧ (value = "true" ∨ value = "false")) ∨
  (field = "naming_scheme" ∧
    (value = "ask" ∨ value = "words" ∨ value = "uuid" ∨ value = "mattermost"))

instance (field value : String) : Decidable (validPair field value) := by
  unfold validPair; infer_instance

/-- A parameter list that is neither a view request (empty, or starting with `see`) nor a valid
(field, value) pair: an unknown field name, a known field with a value outside its domain, or
a wrong number of parameters. -/
def rejectedParameters (parameters : List String) : Prop :=
  parameters ≠ [] ∧ parameters.head? ≠ some "see" ∧
  ∀ field value, parameters = [field, value] → ¬ validPair field value

/-- The store model of the round-trip and idempotence claims: `getUserConfig` returns the
record last written by a successful `setUserConfig` for that user. -/
def ReadYourWrites {S : Type} (p : Plugin S) : Prop :=
  ∀ s userID c s', p.setUserConfig s userID c = (none, s') → p.getUserConfig s' userID = .ok c

/-- The template-data key under which the view shows a settings field. -/
def templateKey (field : String) : String :=
  if field = "embedded" then "Embedded"
  else if field = "show_prejoin_page" then "ShowPrejoinPage"
  else "NamingScheme"

/-! ## A concrete plugin, for evaluation -/

/-- A settings store: the records written so far, most recent first. -/
abbrev KVStore := List (String × UserConfig)

/-- A plugin over `KVStore` whose lookups succeed, whose store reads fall back to a default
record and whose localizer returns the message key. -/
def demoPlugin : Plugin KVStore where
  botID := "bot"
  GetUser := fun u => .ok ⟨u⟩
  GetChannel := fun c => .ok ⟨c⟩
  getUserConfig := fun s u => .ok ((s.lookup u).getD ⟨false, true, "words"⟩)
  setUserConfig := fun s u c => (none, (u, c) :: s)
  askMeetingType := fun _ _ _ => none
  startMeeting := fun _ _ _ _ _ _ => .ok "meeting"
  GetUserLocalizer := fun _ => "en"
  LocalizeWithConfig := fun _ c => c.ID

/-- The empty store and the empty trace. -/
def demoWorld : World KVStore := ⟨[], []⟩

/-- The empty trace over a store that holds the naming scheme `ask` for user `u`. -/
def demoWorldAsk : World KVStore := ⟨[("u", ⟨false, true, "ask"⟩)], []⟩

/-- An invocation by user `u` in channel `c`, thread `r`. -/
def demoArgs (command : String) : CommandArgs :=
  { UserId := "u", ChannelId := "c", RootId := "r", Command := command }

/-- One of the four naming-scheme values of the spec. -/
def namingSchemeValid (scheme : String) : Prop :=
  scheme = "words" ∨ scheme = "uuid" ∨ scheme = "mattermost" ∨ scheme = "ask"

instance (scheme : String) : Decidable (namingSchemeValid scheme) := by
  unfold namingSchemeValid; infer_instance

/-- The text that `startMeetingError` puts in the response and in the error message. -/
def couldNotStartText : String := "We could not start a meeting at this time."

/-- The empty trace over a store that holds, for user `u`, a record whose naming scheme is none
of the four values. -/
def demoWorldBogus : World KVStore := ⟨[("u", ⟨false, true, "bogus"⟩)], []⟩

/-- The demo plugin with a settings store whose reads fail. -/
def loadFailsPlugin : Plugin KVStore :=
  { demoPlugin with getUserConfig := fun _ _ => .error "store down" }

/-- The demo plugin with a meeting subsystem that fails with `jitsi unreachable`. -/
def startFailsPlugin : Plugin KVStore :=
  { demoPlugin with startMeeting := fun _ _ _ _ _ _ => .error "jitsi unreachable" }

/-- The demo plugin with a user lookup that fails and a localizer that returns the empty text
for every message. -/
def silentPlugin : Plugin KVStore :=
  { demoPlugin with
    GetUser := fun _ => .error "no such user"
    LocalizeWithConfig := fun _ _ => "" }

/-- The demo plugin with a localizer that returns the default text of the message and ignores
the template data. -/
def defaultTextPlugin : Plugin KVStore :=
  { demoPlugin with LocalizeWithConfig := fun _ c => c.Other }

/-- A step of a start-meeting invocation fails: the user lookup; or, the steps before it having
succeeded, the channel lookup, the settings load, the naming prompt (reached when the naming
scheme is `ask` and the topic is empty) or the meeting start (reached otherwise). -/
def StartStepFails {S : Type} (p : Plugin S) (w : World S) (args : CommandArgs) : Prop :=
  (∃ e, p.GetUser args.UserId = .error e) ∨
  (∃ user e, p.GetUser args.UserId = .ok user ∧ p.GetChannel args.ChannelId = .error e) ∨
  (∃ user channel e, p.GetUser args.UserId = .ok user ∧
    p.GetChannel args.ChannelId = .ok channel ∧
    p.getUserConfig w.store args.UserId = .error e) ∨
  (∃ user channel cfg e, p.GetUser args.UserId = .ok user ∧
    p.GetChannel args.ChannelId = .ok channel ∧
    p.getUserConfig w.store args.UserId = .ok cfg ∧
    (cfg.NamingScheme = "ask" ∧ startMeetingInput args.Command = "") ∧
    p.askMeetingType user channel args.RootId = some e) ∨
  (∃ user channel cfg e, p.GetUser args.UserId = .ok user ∧
    p.GetChannel args.ChannelId = .ok channel ∧
    p.getUserConfig w.store args.UserId = .ok cfg ∧
    ¬ (cfg.NamingScheme = "ask" ∧ startMeetingInput args.Command = "") ∧
    p.startMeeting user channel "" (startMeetingInput args.Command) false args.RootId
      = .error e)

/-- The demo plugin with a naming prompt that fails with `dialog failed`. -/
def promptFailsPlugin : Plugin KVStore :=
  { demoPlugin with askMeetingType := fun _ _ _ => some "dialog failed" }

/-! ## Basic facts -/

@[simp] theorem World.log_store {S : Type} (w : World S) (c : Call) : (w.log c).store = w.store :=
  rfl

@[simp] theorem World.log_trace {S : Type} (w : World S) (c : Call) :
    (w.log c).trace = w.trace ++ [c] := rfl

/-! ## Command routing -/

/-- C1: when the first whitespace-separated token of the command is exactly `/jitsi`,
`ExecuteCommand` routes by the second token (`""` when absent): `help` runs the help handler,
`settings` runs the settings handler on the tokens from the third on, in order, and every other
action runs the start-meeting handler; the call never faults and there is no error route. -/
theorem ExecuteCommand_routes_by_action {S : Type} (p : Plugin S) (w : World S)
    (args : CommandArgs) (h : (Fields args.Command).head? = some "/jitsi") :
    ((Fields args.Command).getD 1 "" = "help" →
      ExecuteCommand p w args = some (executeHelpCommand p w args)) ∧
    ((Fields args.Command).getD 1 "" = "settings" →
      ExecuteCommand p w args
        = some (executeSettingsCommand p w args ((Fields args.Command).drop 2))) ∧
    ((Fields args.Command).getD 1 "" ≠ "help" → (Fields args.Command).getD 1 "" ≠ "settings" →
      ExecuteCommand p w args = some (executeStartMeetingCommand p w args)) := by
  unfold ExecuteCommand
  rcases hf : Fields args.Command with _ | ⟨c, _ | ⟨a, ps⟩⟩
  · simp [hf] at h
  · simp only [hf, List.head?_cons, Option.some.injEq] at h
    subst h
    simp [jitsiCommand]
  · simp only [hf, List.head?_cons, Option.some.injEq] at h
    subst h
    by_cases h1 : a = "help"
    · subst h1; simp [jitsiCommand]
    · by_cases h2 : a = "settings"
      · subst h2
        rcases ps with _ | ⟨q, qs⟩ <;> simp [jitsiCommand]
      · simp [jitsiCommand, h1, h2]

/-- C1 at `/jitsi settings embedded true`: the settings handler receives `embedded`, `true`. -/
theorem ExecuteCommand_routes_by_action_witness :
    (Fields (demoArgs "/jitsi settings embedded true").Command).head? = some "/jitsi" ∧
    ExecuteCommand demoPlugin demoWorld (demoArgs "/jitsi settings embedded true")
      = some (executeSettingsCommand demoPlugin demoWorld
          (demoArgs "/jitsi settings embedded true") ["embedded", "true"]) :=
  ⟨by decide,
   (ExecuteCommand_routes_by_action demoPlugin demoWorld
      (demoArgs "/jitsi settings embedded true") (by decide)).2.1 (by decide)⟩

/-! ## The field switch -/

/-- On a valid pair the switch keeps a record. -/
theorem settingsSwitch_valid {S : Type} (p : Plugin S) (l : String) (cfg : UserConfig)
    (field value : String) (h : validPair field value) :
    ∃ c, settingsSwitch p l cfg field value = (some c, "") := by
  rcases h with ⟨rfl, rfl | rfl⟩ | ⟨rfl, rfl | rfl⟩ | ⟨rfl, rfl | rfl | rfl | rfl⟩ <;>
    simp [settingsSwitch, commandArgEmbedded, commandArgNamingScheme, commandArgShowPrejoinPage,
      valueTrue, valueFalse, jitsiNameSchemeAsk, jitsiNameSchemeWords, jitsiNameSchemeUUID,
      jitsiNameSchemeMattermost]

/-- A record kept by the switch comes from a valid pair. -/
theorem validPair_of_settingsSwitch {S : Type} (p : Plugin S) (l : String) (cfg c : UserConfig)
    (field value text : String) (h : settingsSwitch p l cfg field value = (some c, text)) :
    validPair field value := by
  unfold settingsSwitch at h
  simp only [commandArgEmbedded, commandArgNamingScheme, commandArgShowPrejoinPage,
    valueTrue, valueFalse, jitsiNameSchemeAsk, jitsiNameSchemeWords, jitsiNameSchemeUUID,
    jitsiNameSchemeMattermost] at h
  unfold validPair
  split_ifs at h <;> simp_all

/-- The record kept by the switch is the loaded record with the named field set from the
value. -/
theorem settingsSwitch_some {S : Type} (p : Plugin S) (l : String) (cfg c : UserConfig)
    (field value text : String) (h : settingsSwitch p l cfg field value = (some c, text)) :
    (field = "embedded" ∧ c = { cfg with Embedded := decide (value = "true") }) ∨
    (field = "show_prejoin_page" ∧ c = { cfg with ShowPrejoinPage := decide (value = "true") }) ∨
    (field = "naming_scheme" ∧ c = { cfg with NamingScheme := value }) := by
  unfold settingsSwitch at h
  simp only [commandArgEmbedded, commandArgNamingScheme, commandArgShowPrejoinPage,
    valueTrue, valueFalse, jitsiNameSchemeAsk, jitsiNameSchemeWords, jitsiNameSchemeUUID,
    jitsiNameSchemeMattermost] at h
  split_ifs at h <;> simp_all

/-- The `setUserConfig` calls of a settings invocation on two parameters, the first not `see`:
one call with the record kept by the switch, or none when the switch rejects. -/
theorem setUserConfigCalls_pair {S : Type} (p : Plugin S) (w : World S) (args : CommandArgs)
    (cfg : UserConfig) (field value : String)
    (hload : p.getUserConfig w.store args.UserId = .ok cfg) (hsee : field ≠ "see") :
    setUserConfigCalls (newCalls w (executeSettingsCommand p w args [field, value])) =
      match (settingsSwitch p (p.GetUserLocalizer args.UserId) cfg field value).1 with
      | none => []
      | some c => [(args.UserId, c)] := by
  unfold executeSettingsCommand
  simp only [World.log_store, hload, List.length_cons, List.length_nil, List.head?_cons,
    Option.some.injEq, jitsiSettingsSeeCommand, hsee, or_false]
  rcases hsw : settingsSwitch p (p.GetUserLocalizer args.UserId) cfg field value with ⟨_ | c, text⟩
  · simp [newCalls, settingsError, setUserConfigCalls]
  · rcases hset : p.setUserConfig w.store args.UserId c with ⟨_ | e, st⟩ <;>
      simp [newCalls, settingsError, setUserConfigCalls, hset]

/-! ## Settings updates -/

/-- C2: with the settings loaded and two parameters (field, value), field not `see`,
`setUserConfig` is called if and only if (field, value) is one of the eight valid pairs; the
record it receives then has the named field equal to the boolean named by the value, or to the
naming-scheme string. -/
theorem settings_update_accepted_iff_valid {S : Type} (p : Plugin S) (w : World S)
    (args : CommandArgs) (cfg : UserConfig) (field value : String)
    (hload : p.getUserConfig w.store args.UserId = .ok cfg) (hsee : field ≠ "see") :
    (setUserConfigCalls (newCalls w (executeSettingsCommand p w args [field, value])) ≠ []
      ↔ validPair field value) ∧
    ∀ u c,
      (u, c) ∈ setUserConfigCalls (newCalls w (executeSettingsCommand p w args [field, value])) →
      u = args.UserId ∧
      (field = "embedded" →
        (value = "true" → c.Embedded = true) ∧ (value = "false" → c.Embedded = false)) ∧
      (field = "show_prejoin_page" →
        (value = "true" → c.ShowPrejoinPage = true) ∧
        (value = "false" → c.ShowPrejoinPage = false)) ∧
      (field = "naming_scheme" → c.NamingScheme = value) := by
  rw [setUserConfigCalls_pair p w args cfg field value hload hsee]
  rcases hsw : settingsSwitch p (p.GetUserLocalizer args.UserId) cfg field value with ⟨_ | c, text⟩
  · refine ⟨?_, by simp⟩
    simp only [ne_eq, not_true_eq_false, false_iff]
    intro hv
    obtain ⟨c, hc⟩ := settingsSwitch_valid p (p.GetUserLocalizer args.UserId) cfg field value hv
    rw [hsw] at hc
    simp at hc
  · refine ⟨?_, ?_⟩
    · simp only [ne_eq, List.cons_ne_nil, not_false_eq_true, true_iff]
      exact validPair_of_settingsSwitch p _ cfg c field value text hsw
    · intro u c' hmem
      simp only [List.mem_singleton, Prod.mk.injEq] at hmem
      obtain ⟨rfl, rfl⟩ := hmem
      have hv := validPair_of_settingsSwitch p _ cfg c' field value text hsw
      rcases settingsSwitch_some p _ cfg c' field value text hsw with
        ⟨rfl, rfl⟩ | ⟨rfl, rfl⟩ | ⟨rfl, rfl⟩ <;> simp [validPair] at hv ⊢ <;>
        (rintro rfl; decide)

/-- C2 at (`naming_scheme`, `uuid`) on the default record of the demo plugin. -/
theorem settings_update_accepted_iff_valid_witness :
    (setUserConfigCalls (newCalls demoWorld (executeSettingsCommand demoPlugin demoWorld
        (demoArgs "/jitsi settings naming_scheme uuid") ["naming_scheme", "uuid"])) ≠ []
      ↔ validPair "naming_scheme" "uuid") ∧
    ∀ u c,
      (u, c) ∈ setUserConfigCalls (newCalls demoWorld (executeSettingsCommand demoPlugin
        demoWorld (demoArgs "/jitsi settings naming_scheme uuid") ["naming_scheme", "uuid"])) →
      u = "u" ∧
      ("naming_scheme" = "embedded" →
        ("uuid" = "true" → c.Embedded = true) ∧ ("uuid" = "false" → c.Embedded = false)) ∧
      ("naming_scheme" = "show_prejoin_page" →
        ("uuid" = "true" → c.ShowPrejoinPage = true) ∧
        ("uuid" = "false" → c.ShowPrejoinPage = false)) ∧
      ("naming_scheme" = "naming_scheme" → c.NamingScheme = "uuid") :=
  settings_update_accepted_iff_valid demoPlugin demoWorld
    (demoArgs "/jitsi settings naming_scheme uuid") ⟨false, true, "words"⟩ "naming_scheme" "uuid"
    rfl (by decide)

/-- C3: a rejected parameter list (unknown field, value outside the domain of a known field, or
wrong parameter count) makes `executeSettingsCommand` call `setUserConfig` not at all and leaves
the settings store as it was, whatever the load returns. -/
theorem rejected_settings_write_nothing {S : Type} (p : Plugin S) (w : World S)
    (args : CommandArgs) (parameters : List String) (h : rejectedParameters parameters) :
    setUserConfigCalls (newCalls w (executeSettingsCommand p w args parameters)) = [] ∧
    (executeSettingsCommand p w args parameters).2.store = w.store := by
  obtain ⟨hne, hsee, hval⟩ := h
  unfold executeSettingsCommand
  rcases hload : p.getUserConfig w.store args.UserId with e | cfg
  · simp [hload, newCalls, settingsError, setUserConfigCalls]
  · rcases parameters with _ | ⟨f, _ | ⟨v, _ | ⟨x, xs⟩⟩⟩
    · exact absurd rfl hne
    · simp only [List.head?_cons, ne_eq, Option.some.injEq] at hsee
      simp [hload, hsee, jitsiSettingsSeeCommand, newCalls, settingsError, setUserConfigCalls]
    · simp only [List.head?_cons, ne_eq, Option.some.injEq] at hsee
      have hv := hval f v rfl
      rcases hsw : settingsSwitch p (p.GetUserLocalizer args.UserId) cfg f v with ⟨_ | c, text⟩
      · simp [hload, hsee, hsw, jitsiSettingsSeeCommand, newCalls, settingsError,
          setUserConfigCalls]
      · exact absurd (validPair_of_settingsSwitch p _ cfg c f v text hsw) hv
    · simp only [List.head?_cons, ne_eq, Option.some.injEq] at hsee
      simp [hload, hsee, jitsiSettingsSeeCommand, newCalls, settingsError, setUserConfigCalls]

/-- C3 at `naming_scheme frobnicate`. -/
theorem rejected_settings_write_nothing_witness :
    rejectedParameters ["naming_scheme", "frobnicate"] ∧
    setUserConfigCalls (newCalls demoWorld (executeSettingsCommand demoPlugin demoWorld
      (demoArgs "/jitsi settings naming_scheme frobnicate") ["naming_scheme", "frobnicate"]))
      = [] ∧
    (executeSettingsCommand demoPlugin demoWorld
      (demoArgs "/jitsi settings naming_scheme frobnicate")
      ["naming_scheme", "frobnicate"]).2.store = demoWorld.store :=
  have h : rejectedParameters ["naming_scheme", "frobnicate"] :=
    ⟨by decide, by decide, by
      intro f v hfv
      simp only [List.cons.injEq, and_true] at hfv
      obtain ⟨rfl, rfl⟩ := hfv
      decide⟩
  ⟨h, rejected_settings_write_nothing demoPlugin demoWorld
    (demoArgs "/jitsi settings naming_scheme frobnicate") ["naming_scheme", "frobnicate"] h⟩

/-- C4: on a valid pair the one record passed to `setUserConfig` differs from the loaded record
in the named field at most: the two other fields keep their loaded values. -/
theorem settings_update_frame {S : Type} (p : Plugin S) (w : World S)
    (args : CommandArgs) (cfg : UserConfig) (field value : String)
    (hload : p.getUserConfig w.store args.UserId = .ok cfg) (hvalid : validPair field value) :
    ∃ c,
      setUserConfigCalls (newCalls w (executeSettingsCommand p w args [field, value]))
        = [(args.UserId, c)] ∧
      (field = "embedded" →
        c.ShowPrejoinPage = cfg.ShowPrejoinPage ∧ c.NamingScheme = cfg.NamingScheme) ∧
      (field = "show_prejoin_page" →
        c.Embedded = cfg.Embedded ∧ c.NamingScheme = cfg.NamingScheme) ∧
      (field = "naming_scheme" →
        c.Embedded = cfg.Embedded ∧ c.ShowPrejoinPage = cfg.ShowPrejoinPage) := by
  have hsee : field ≠ "see" := by
    rcases hvalid with ⟨rfl, _⟩ | ⟨rfl, _⟩ | ⟨rfl, _⟩ <;> decide
  rw [setUserConfigCalls_pair p w args cfg field value hload hsee]
  obtain ⟨c, hc⟩ := settingsSwitch_valid p (p.GetUserLocalizer args.UserId) cfg field value hvalid
  refine ⟨c, by rw [hc], ?_⟩
  rcases settingsSwitch_some p _ cfg c field value "" hc with
    ⟨rfl, rfl⟩ | ⟨rfl, rfl⟩ | ⟨rfl, rfl⟩ <;> simp

/-- C4 at (`embedded`, `true`) on the default record of the demo plugin. -/
theorem settings_update_frame_witness :
    validPair "embedded" "true" ∧
    ∃ c,
      setUserConfigCalls (newCalls demoWorld (executeSettingsCommand demoPlugin demoWorld
        (demoArgs "/jitsi settings embedded true") ["embedded", "true"])) = [("u", c)] ∧
      ("embedded" = "embedded" → c.ShowPrejoinPage = true ∧ c.NamingScheme = "words") ∧
      ("embedded" = "show_prejoin_page" → c.Embedded = false ∧ c.NamingScheme = "words") ∧
      ("embedded" = "naming_scheme" → c.Embedded = false ∧ c.ShowPrejoinPage = true) :=
  ⟨by decide,
   settings_update_frame demoPlugin demoWorld (demoArgs "/jitsi settings embedded true")
    ⟨false, true, "words"⟩ "embedded" "true" rfl (by decide)⟩

/-! ## The parameter-count branch -/

/-- C5, as stated, fails on the list `see`, `true`: it has exactly two elements and is not the
single element `see`, yet the run is the view run (the same as with no parameter), posting the
current values and validating nothing. -/
theorem settings_see_with_value_is_view :
    ["see", "true"].length = 2 ∧ ["see", "true"] ≠ ["see"] ∧
    executeSettingsCommand demoPlugin demoWorld (demoArgs "/jitsi settings see true")
        ["see", "true"]
      = executeSettingsCommand demoPlugin demoWorld (demoArgs "/jitsi settings see true") [] ∧
    newCalls demoWorld (executeSettingsCommand demoPlugin demoWorld
        (demoArgs "/jitsi settings see true") ["see", "true"])
      = [.getUserConfig "u",
         .SendEphemeralPost "u"
           { UserId := "bot", ChannelId := "c",
             Message := "jitsi.command.settings.current_values", RootId := "r" }] :=
  ⟨by decide, by decide, rfl, by decide⟩

/-- C5, amended: with the settings loaded, the run is the view run exactly on the lists that
are empty or start with `see` (whatever follows); a list of exactly two elements whose first is
not `see` goes through the field switch; every other list, i.e. every non-empty list not
starting with `see` whose length is not 2, gets the "Invalid settings parameters" rejection. -/
theorem settings_branch_by_parameters {S : Type} (p : Plugin S) (w : World S)
    (args : CommandArgs) (cfg : UserConfig) (parameters : List String)
    (hload : p.getUserConfig w.store args.UserId = .ok cfg) :
    ((parameters = [] ∨ parameters.head? = some "see") →
      executeSettingsCommand p w args parameters =
        (({}, none),
         (w.log (.getUserConfig args.UserId)).log (.SendEphemeralPost args.UserId
           { UserId := p.botID, ChannelId := args.ChannelId,
             Message := ReplaceAllBarBacktick (p.LocalizeWithConfig
               (p.GetUserLocalizer args.UserId)
               { ID := "jitsi.command.settings.current_values",
                 Other := currentValuesOther,
                 TemplateData :=
                   [("Embedded", sprintBool cfg.Embedded),
                    ("ShowPrejoinPage", sprintBool cfg.ShowPrejoinPage),
                    ("NamingScheme", cfg.NamingScheme)] }),
             RootId := args.RootId }))) ∧
    (∀ field value, parameters = [field, value] → field ≠ "see" →
      (∀ text, settingsSwitch p (p.GetUserLocalizer args.UserId) cfg field value = (none, text) →
        executeSettingsCommand p w args parameters =
          settingsError p (w.log (.getUserConfig args.UserId)) args.UserId args.ChannelId text
            args.RootId) ∧
      (∀ c text,
        settingsSwitch p (p.GetUserLocalizer args.UserId) cfg field value = (some c, text) →
        (newCalls w (executeSettingsCommand p w args parameters)).take 2 =
          [.getUserConfig args.UserId, .setUserConfig args.UserId c])) ∧
    (parameters ≠ [] → parameters.head? ≠ some "see" → parameters.length ≠ 2 →
      executeSettingsCommand p w args parameters =
        settingsError p (w.log (.getUserConfig args.UserId)) args.UserId args.ChannelId
          (p.LocalizeWithConfig (p.GetUserLocalizer args.UserId)
            { ID := "jitsi.command.settings.invalid_parameters",
              Other := "Invalid settings parameters" })
          args.RootId) := by
  refine ⟨?_, ?_, ?_⟩
  · intro h
    unfold executeSettingsCommand
    rcases h with rfl | h
    · simp [hload]
    · simp [hload, h, jitsiSettingsSeeCommand]
  · rintro field value rfl hsee
    unfold executeSettingsCommand
    refine ⟨?_, ?_⟩
    · intro text hsw
      simp [hload, hsee, hsw, jitsiSettingsSeeCommand]
    · intro c text hsw
      rcases hset : p.setUserConfig w.store args.UserId c with ⟨_ | e, st⟩ <;>
        simp [hload, hsee, hsw, hset, jitsiSettingsSeeCommand, newCalls, settingsError]
  · intro hne hsee hlen
    unfold executeSettingsCommand
    rcases parameters with _ | ⟨f, _ | ⟨v, _ | ⟨x, xs⟩⟩⟩
    · exact absurd rfl hne
    · simp only [List.head?_cons, ne_eq, Option.some.injEq] at hsee
      simp [hload, hsee, jitsiSettingsSeeCommand]
    · simp at hlen
    · simp only [List.head?_cons, ne_eq, Option.some.injEq] at hsee
      simp [hload, hsee, jitsiSettingsSeeCommand]

/-- C5, amended, at the one-parameter list `embedded`: the invalid-parameters rejection. -/
theorem settings_branch_by_parameters_witness :
    executeSettingsCommand demoPlugin demoWorld (demoArgs "/jitsi settings embedded")
        ["embedded"] =
      settingsError demoPlugin (demoWorld.log (.getUserConfig "u")) "u" "c"
        "jitsi.command.settings.invalid_parameters" "r" :=
  (settings_branch_by_parameters demoPlugin demoWorld (demoArgs "/jitsi settings embedded")
    ⟨false, true, "words"⟩ ["embedded"] rfl).2.2 (by decide) (by decide) (by decide)

/-! ## The topic of a meeting -/

/-- C6 at `/jitsi startup now`: the action token is `startup`, which is none of `help`,
`settings`, `start`; the command runs the start-meeting handler, and the topic passed to
`startMeeting` is `up now`, which does not begin with the action token. -/
theorem startMeetingInput_cuts_into_action_token :
    Fields "/jitsi startup now" = ["/jitsi", "startup", "now"] ∧
    startMeetingInput "/jitsi startup now" = "up now" ∧
    (ExecuteCommand demoPlugin demoWorld (demoArgs "/jitsi startup now")).map
        (fun r => startMeetingCalls (newCalls demoWorld r))
      = some [(⟨"u"⟩, ⟨"c"⟩, "", "up now", false, "r")] := by
  refine ⟨by decide, by decide, rfl⟩

/-! ## Rejection messages -/

/-- C7: with the settings loaded, a rejected two-parameter update posts exactly one message,
the localization of the key of its failure kind: `wrong_embedded_value` for `embedded` with a
value other than `true`, `false`; `wrong_naming_scheme_value` for `naming_scheme` with a value
outside `ask`, `words`, `uuid`, `mattermost`; `wrong_show_prejoin_page_value` for
`show_prejoin_page` with a value other than `true`, `false`; `wrong_field` for any other field
name (other than the view keyword `see`), whatever the value. -/
theorem rejected_update_message_key {S : Type} (p : Plugin S) (w : World S)
    (args : CommandArgs) (cfg : UserConfig) (field value : String)
    (hload : p.getUserConfig w.store args.UserId = .ok cfg) :
    (field = "embedded" → value ≠ "true" → value ≠ "false" →
      ∃ other, ephemeralPosts (newCalls w (executeSettingsCommand p w args [field, value])) =
        [(args.UserId,
          { UserId := p.botID, ChannelId := args.ChannelId,
            Message := p.LocalizeWithConfig (p.GetUserLocalizer args.UserId)
              { ID := "jitsi.command.settings.wrong_embedded_value", Other := other },
            RootId := args.RootId })]) ∧
    (field = "naming_scheme" →
      value ≠ "ask" → value ≠ "words" → value ≠ "uuid" → value ≠ "mattermost" →
      ∃ other, ephemeralPosts (newCalls w (executeSettingsCommand p w args [field, value])) =
        [(args.UserId,
          { UserId := p.botID, ChannelId := args.ChannelId,
            Message := p.LocalizeWithConfig (p.GetUserLocalizer args.UserId)
              { ID := "jitsi.command.settings.wrong_naming_scheme_value", Other := other },
            RootId := args.RootId })]) ∧
    (field = "show_prejoin_page" → value ≠ "true" → value ≠ "false" →
      ∃ other, ephemeralPosts (newCalls w (executeSettingsCommand p w args [field, value])) =
        [(args.UserId,
          { UserId := p.botID, ChannelId := args.ChannelId,
            Message := p.LocalizeWithConfig (p.GetUserLocalizer args.UserId)
              { ID := "jitsi.command.settings.wrong_show_prejoin_page_value", Other := other },
            RootId := args.RootId })]) ∧
    (field ≠ "embedded" → field ≠ "naming_scheme" → field ≠ "show_prejoin_page" →
      field ≠ "see" →
      ∃ other, ephemeralPosts (newCalls w (executeSettingsCommand p w args [field, value])) =
        [(args.UserId,
          { UserId := p.botID, ChannelId := args.ChannelId,
            Message := p.LocalizeWithConfig (p.GetUserLocalizer args.UserId)
              { ID := "jitsi.command.settings.wrong_field", Other := other },
            RootId := args.RootId })]) := by
  refine ⟨?_, ?_, ?_, ?_⟩
  · rintro rfl h1 h2
    simp [executeSettingsCommand, hload, jitsiSettingsSeeCommand, settingsSwitch,
      commandArgEmbedded, valueTrue, valueFalse, h1, h2, newCalls, settingsError,
      ephemeralPosts]
    exact ⟨_, rfl⟩
  · rintro rfl h1 h2 h3 h4
    simp [executeSettingsCommand, hload, jitsiSettingsSeeCommand, settingsSwitch,
      commandArgEmbedded, commandArgNamingScheme, jitsiNameSchemeAsk, jitsiNameSchemeWords,
      jitsiNameSchemeUUID, jitsiNameSchemeMattermost, h1, h2, h3, h4, newCalls, settingsError,
      ephemeralPosts]
    exact ⟨_, rfl⟩
  · rintro rfl h1 h2
    simp [executeSettingsCommand, hload, jitsiSettingsSeeCommand, settingsSwitch,
      commandArgEmbedded, commandArgNamingScheme, commandArgShowPrejoinPage, valueTrue,
      valueFalse, h1, h2, newCalls, settingsError, ephemeralPosts]
    exact ⟨_, rfl⟩
  · intro h1 h2 h3 h4
    simp [executeSettingsCommand, hload, jitsiSettingsSeeCommand, settingsSwitch,
      commandArgEmbedded, commandArgNamingScheme, commandArgShowPrejoinPage, h1, h2, h3, h4,
      newCalls, settingsError, ephemeralPosts]
    exact ⟨_, rfl⟩

/-- C7 at (`naming_scheme`, `frobnicate`): the posted message has the key
`wrong_naming_scheme_value`. -/
theorem rejected_update_message_key_witness :
    ∃ other, ephemeralPosts (newCalls demoWorld (executeSettingsCommand demoPlugin demoWorld
        (demoArgs "/jitsi settings naming_scheme frobnicate") ["naming_scheme", "frobnicate"])) =
      [("u",
        { UserId := "bot", ChannelId := "c",
          Message := demoPlugin.LocalizeWithConfig "en"
            { ID := "jitsi.command.settings.wrong_naming_scheme_value", Other := other },
          RootId := "r" })] :=
  (rejected_update_message_key demoPlugin demoWorld
    (demoArgs "/jitsi settings naming_scheme frobnicate") ⟨false, true, "words"⟩
    "naming_scheme" "frobnicate" rfl).2.1 rfl (by decide) (by decide) (by decide) (by decide)

/-! ## Round trip and idempotence over a read-your-writes store -/

/-- The store after a settings invocation on two parameters whose switch keeps a record: the
store returned by `setUserConfig`. -/
theorem executeSettingsCommand_store_pair {S : Type} (p : Plugin S) (w : World S)
    (args : CommandArgs) (cfg c : UserConfig) (field value text : String)
    (hload : p.getUserConfig w.store args.UserId = .ok cfg) (hsee : field ≠ "see")
    (hsw : settingsSwitch p (p.GetUserLocalizer args.UserId) cfg field value = (some c, text)) :
    (executeSettingsCommand p w args [field, value]).2.store
      = (p.setUserConfig w.store args.UserId c).2 := by
  unfold executeSettingsCommand
  rcases hset : p.setUserConfig w.store args.UserId c with ⟨_ | e, st⟩ <;>
    simp [hload, hsee, hsw, hset, jitsiSettingsSeeCommand, settingsError]

/-- A valid field name is not the view keyword. -/
theorem validPair_ne_see (field value : String) (h : validPair field value) : field ≠ "see" := by
  rcases h with ⟨rfl, _⟩ | ⟨rfl, _⟩ | ⟨rfl, _⟩ <;> decide

/-- The switch applied to its own result on the same pair returns that result. -/
theorem settingsSwitch_idem {S : Type} (p : Plugin S) (l : String) (cfg c : UserConfig)
    (field value text : String) (h : settingsSwitch p l cfg field value = (some c, text)) :
    settingsSwitch p l c field value = (some c, "") := by
  obtain ⟨c', hc'⟩ := settingsSwitch_valid p l c field value
    (validPair_of_settingsSwitch p l cfg c field value text h)
  rw [hc']
  rcases settingsSwitch_some p l cfg c field value text h with
    ⟨rfl, rfl⟩ | ⟨rfl, rfl⟩ | ⟨rfl, rfl⟩ <;>
  rcases settingsSwitch_some p l _ c' _ value "" hc' with
    ⟨h1, rfl⟩ | ⟨h1, rfl⟩ | ⟨h1, rfl⟩ <;>
  first
    | rfl
    | exact absurd h1 (by decide)

/-- C8: over a store in which `getUserConfig` returns the record last written, after a
settings update with a valid (field, value) whose save succeeds, a view invocation by the same
user localizes the current-values message with template data whose entry for that field is the
value typed, and posts it. -/
theorem view_after_update_shows_value {S : Type} (p : Plugin S) (w : World S)
    (args args2 : CommandArgs) (cfg : UserConfig) (field value : String)
    (hstore : ReadYourWrites p)
    (hload : p.getUserConfig w.store args.UserId = .ok cfg)
    (hvalid : validPair field value)
    (hsave : ∀ c, (p.setUserConfig w.store args.UserId c).1 = none)
    (huser : args2.UserId = args.UserId) :
    ∃ td, td.lookup (templateKey field) = some value ∧
      newCalls (executeSettingsCommand p w args [field, value]).2
          (executeSettingsCommand p (executeSettingsCommand p w args [field, value]).2 args2
            ["see"]) =
        [.getUserConfig args2.UserId,
         .SendEphemeralPost args2.UserId
           { UserId := p.botID, ChannelId := args2.ChannelId,
             Message := ReplaceAllBarBacktick (p.LocalizeWithConfig
               (p.GetUserLocalizer args2.UserId)
               { ID := "jitsi.command.settings.current_values",
                 Other := currentValuesOther,
                 TemplateData := td }),
             RootId := args2.RootId }] := by
  have hsee := validPair_ne_see field value hvalid
  obtain ⟨c, hc⟩ := settingsSwitch_valid p (p.GetUserLocalizer args.UserId) cfg field value hvalid
  have hst := executeSettingsCommand_store_pair p w args cfg c field value "" hload hsee hc
  have hget : p.getUserConfig (executeSettingsCommand p w args [field, value]).2.store
      args2.UserId = .ok c := by
    rw [hst, huser]
    exact hstore w.store args.UserId c _ (Prod.ext (hsave c) rfl)
  refine ⟨[("Embedded", sprintBool c.Embedded), ("ShowPrejoinPage", sprintBool c.ShowPrejoinPage),
    ("NamingScheme", c.NamingScheme)], ?_, ?_⟩
  · rcases settingsSwitch_some p _ cfg c field value "" hc with
      ⟨rfl, rfl⟩ | ⟨rfl, rfl⟩ | ⟨rfl, rfl⟩
    · rcases hvalid with ⟨_, rfl | rfl⟩ | ⟨h, _⟩ | ⟨h, _⟩
      · simp [templateKey, List.lookup, sprintBool]
      · simp [templateKey, List.lookup, sprintBool]
      · exact absurd h (by decide)
      · exact absurd h (by decide)
    · rcases hvalid with ⟨h, _⟩ | ⟨_, rfl | rfl⟩ | ⟨h, _⟩
      · exact absurd h (by decide)
      · simp [templateKey, List.lookup, sprintBool]
      · simp [templateKey, List.lookup, sprintBool]
      · exact absurd h (by decide)
    · simp [templateKey, List.lookup]
  · generalize executeSettingsCommand p w args [field, value] = r1 at hget ⊢
    unfold executeSettingsCommand
    simp [hget, jitsiSettingsSeeCommand, newCalls]

/-- C9: over a store in which `getUserConfig` returns the record last written and writes
succeed, running a valid settings update twice in a row leaves the user the same stored record
as running it once. -/
theorem settings_update_idempotent {S : Type} (p : Plugin S) (w : World S)
    (args : CommandArgs) (cfg : UserConfig) (field value : String)
    (hstore : ReadYourWrites p)
    (hsave : ∀ s userID c, (p.setUserConfig s userID c).1 = none)
    (hload : p.getUserConfig w.store args.UserId = .ok cfg)
    (hvalid : validPair field value) :
    ∃ c,
      p.getUserConfig (executeSettingsCommand p w args [field, value]).2.store args.UserId
        = .ok c ∧
      p.getUserConfig
          (executeSettingsCommand p (executeSettingsCommand p w args [field, value]).2 args
            [field, value]).2.store args.UserId
        = .ok c := by
  have hsee := validPair_ne_see field value hvalid
  obtain ⟨c, hc⟩ := settingsSwitch_valid p (p.GetUserLocalizer args.UserId) cfg field value hvalid
  have hst := executeSettingsCommand_store_pair p w args cfg c field value "" hload hsee hc
  have hget : p.getUserConfig (executeSettingsCommand p w args [field, value]).2.store
      args.UserId = .ok c := by
    rw [hst]
    exact hstore w.store args.UserId c _ (Prod.ext (hsave _ _ c) rfl)
  refine ⟨c, hget, ?_⟩
  have hc2 := settingsSwitch_idem p (p.GetUserLocalizer args.UserId) cfg c field value "" hc
  rw [executeSettingsCommand_store_pair p _ args c c field value "" hget hsee hc2]
  exact hstore _ args.UserId c _ (Prod.ext (hsave _ _ c) rfl)

/-- The demo store returns the record last written. -/
theorem demoPlugin_readYourWrites : ReadYourWrites demoPlugin := by
  intro s userID c s' h
  simp only [demoPlugin, Prod.mk.injEq, true_and] at h
  subst h
  simp [demoPlugin, List.lookup]

/-- C8 at (`naming_scheme`, `uuid`) followed by `/jitsi settings see` on the demo plugin. -/
theorem view_after_update_shows_value_witness :
    ReadYourWrites demoPlugin ∧ validPair "naming_scheme" "uuid" ∧
    ∃ td, td.lookup (templateKey "naming_scheme") = some "uuid" ∧
      newCalls (executeSettingsCommand demoPlugin demoWorld
            (demoArgs "/jitsi settings naming_scheme uuid") ["naming_scheme", "uuid"]).2
          (executeSettingsCommand demoPlugin (executeSettingsCommand demoPlugin demoWorld
            (demoArgs "/jitsi settings naming_scheme uuid") ["naming_scheme", "uuid"]).2
            (demoArgs "/jitsi settings see") ["see"]) =
        [.getUserConfig "u",
         .SendEphemeralPost "u"
           { UserId := "bot", ChannelId := "c",
             Message := ReplaceAllBarBacktick (demoPlugin.LocalizeWithConfig "en"
               { ID := "jitsi.command.settings.current_values",
                 Other := currentValuesOther,
                 TemplateData := td }),
             RootId := "r" }] :=
  ⟨demoPlugin_readYourWrites, by decide,
   view_after_update_shows_value demoPlugin demoWorld
    (demoArgs "/jitsi settings naming_scheme uuid") (demoArgs "/jitsi settings see")
    ⟨false, true, "words"⟩ "naming_scheme" "uuid" demoPlugin_readYourWrites rfl (by decide)
    (fun _ => rfl) rfl⟩

/-- C9 at (`embedded`, `true`) on the demo plugin: after one run and after two runs the stored
record of the user is the same. -/
theorem settings_update_idempotent_witness :
    ReadYourWrites demoPlugin ∧ validPair "embedded" "true" ∧
    ∃ c,
      demoPlugin.getUserConfig (executeSettingsCommand demoPlugin demoWorld
          (demoArgs "/jitsi settings embedded true") ["embedded", "true"]).2.store "u"
        = .ok c ∧
      demoPlugin.getUserConfig
          (executeSettingsCommand demoPlugin (executeSettingsCommand demoPlugin demoWorld
            (demoArgs "/jitsi settings embedded true") ["embedded", "true"]).2
            (demoArgs "/jitsi settings embedded true") ["embedded", "true"]).2.store "u"
        = .ok c :=
  ⟨demoPlugin_readYourWrites, by decide,
   settings_update_idempotent demoPlugin demoWorld (demoArgs "/jitsi settings embedded true")
    ⟨false, true, "words"⟩ "embedded" "true" demoPlugin_readYourWrites (fun _ _ _ => rfl) rfl
    (by decide)⟩

/-! ## Start meeting or prompt -/

/-- C10: when the user, channel and settings lookups succeed, `executeStartMeetingCommand`
calls `askMeetingType` (once, with the user, the channel and the thread root) and not
`startMeeting` if and only if the naming scheme is `ask` and the computed topic is empty; in
every other case it calls `startMeeting` exactly once, with the computed topic, an empty
explicit name, `false` and the thread root, and does not call `askMeetingType`. -/
theorem start_meeting_or_prompt {S : Type} (p : Plugin S) (w : World S) (args : CommandArgs)
    (user : User) (channel : Channel) (cfg : UserConfig)
    (huser : p.GetUser args.UserId = .ok user)
    (hchannel : p.GetChannel args.ChannelId = .ok channel)
    (hload : p.getUserConfig w.store args.UserId = .ok cfg) :
    ((askMeetingTypeCalls (newCalls w (executeStartMeetingCommand p w args)) ≠ [] ∧
        startMeetingCalls (newCalls w (executeStartMeetingCommand p w args)) = [])
      ↔ (cfg.NamingScheme = "ask" ∧ startMeetingInput args.Command = "")) ∧
    ((cfg.NamingScheme = "ask" ∧ startMeetingInput args.Command = "") →
      askMeetingTypeCalls (newCalls w (executeStartMeetingCommand p w args))
        = [(user, channel, args.RootId)]) ∧
    (¬ (cfg.NamingScheme = "ask" ∧ startMeetingInput args.Command = "") →
      startMeetingCalls (newCalls w (executeStartMeetingCommand p w args))
        = [(user, channel, "", startMeetingInput args.Command, false, args.RootId)] ∧
      askMeetingTypeCalls (newCalls w (executeStartMeetingCommand p w args)) = []) := by
  by_cases hcond : cfg.NamingScheme = "ask" ∧ startMeetingInput args.Command = ""
  · have hrun : askMeetingTypeCalls (newCalls w (executeStartMeetingCommand p w args))
          = [(user, channel, args.RootId)] ∧
        startMeetingCalls (newCalls w (executeStartMeetingCommand p w args)) = [] := by
      unfold executeStartMeetingCommand
      rcases hask : p.askMeetingType user channel args.RootId with _ | e <;>
        simp [huser, hchannel, hload, hcond.1, hcond.2, hask, jitsiNameSchemeAsk, newCalls,
          askMeetingTypeCalls, startMeetingCalls, startMeetingError]
    refine ⟨⟨fun _ => hcond, fun _ => ⟨by rw [hrun.1]; simp, hrun.2⟩⟩, fun _ => hrun.1,
      fun h => absurd hcond h⟩
  · have hrun : startMeetingCalls (newCalls w (executeStartMeetingCommand p w args))
          = [(user, channel, "", startMeetingInput args.Command, false, args.RootId)] ∧
        askMeetingTypeCalls (newCalls w (executeStartMeetingCommand p w args)) = [] := by
      unfold executeStartMeetingCommand
      rcases hstart : p.startMeeting user channel "" (startMeetingInput args.Command) false
          args.RootId with e | m <;>
        simp [huser, hchannel, hload, hcond, hstart, jitsiNameSchemeAsk, newCalls,
          askMeetingTypeCalls, startMeetingCalls, startMeetingError]
    refine ⟨⟨fun h => absurd hrun.2 h.1, fun h => absurd h hcond⟩, fun h => absurd h hcond,
      fun _ => hrun⟩

/-- C10 at `/jitsi`: with the scheme `words` the meeting starts at once with the empty topic;
with the scheme `ask` the naming prompt is called. -/
theorem start_meeting_or_prompt_witness :
    startMeetingCalls (newCalls demoWorld
        (executeStartMeetingCommand demoPlugin demoWorld (demoArgs "/jitsi")))
      = [(⟨"u"⟩, ⟨"c"⟩, "", startMeetingInput "/jitsi", false, "r")] ∧
    askMeetingTypeCalls (newCalls demoWorld
        (executeStartMeetingCommand demoPlugin demoWorld (demoArgs "/jitsi"))) = [] ∧
    askMeetingTypeCalls (newCalls demoWorldAsk
        (executeStartMeetingCommand demoPlugin demoWorldAsk (demoArgs "/jitsi")))
      = [(⟨"u"⟩, ⟨"c"⟩, "r")] :=
  ⟨((start_meeting_or_prompt demoPlugin demoWorld (demoArgs "/jitsi") ⟨"u"⟩ ⟨"c"⟩
      ⟨false, true, "words"⟩ rfl rfl rfl).2.2 (by decide)).1,
   ((start_meeting_or_prompt demoPlugin demoWorld (demoArgs "/jitsi") ⟨"u"⟩ ⟨"c"⟩
      ⟨false, true, "words"⟩ rfl rfl rfl).2.2 (by decide)).2,
   (start_meeting_or_prompt demoPlugin demoWorldAsk (demoArgs "/jitsi") ⟨"u"⟩ ⟨"c"⟩
      ⟨false, true, "ask"⟩ rfl rfl rfl).2.1 (by decide)⟩

/-! ## The naming scheme written by an update -/

/-- A `setUserConfig` call of a settings invocation comes from two parameters, the first not
`see`, on which the switch keeps the record written. -/
theorem setUserConfigCalls_mem {S : Type} (p : Plugin S) (w : World S) (args : CommandArgs)
    (cfg : UserConfig) (parameters : List String) (u : String) (c : UserConfig)
    (hload : p.getUserConfig w.store args.UserId = .ok cfg)
    (hmem : (u, c) ∈ setUserConfigCalls (newCalls w (executeSettingsCommand p w args parameters))) :
    ∃ field value text, parameters = [field, value] ∧ field ≠ "see" ∧ u = args.UserId ∧
      settingsSwitch p (p.GetUserLocalizer args.UserId) cfg field value = (some c, text) := by
  rcases parameters with _ | ⟨f, _ | ⟨v, _ | ⟨x, xs⟩⟩⟩
  · simp [executeSettingsCommand, hload, newCalls, setUserConfigCalls] at hmem
  · by_cases hsee : f = "see" <;>
      simp [executeSettingsCommand, hload, hsee, jitsiSettingsSeeCommand, newCalls,
        settingsError, setUserConfigCalls] at hmem
  · by_cases hsee : f = "see"
    · simp [executeSettingsCommand, hload, hsee, jitsiSettingsSeeCommand, newCalls,
        setUserConfigCalls] at hmem
    · rw [setUserConfigCalls_pair p w args cfg f v hload hsee] at hmem
      rcases hsw : settingsSwitch p (p.GetUserLocalizer args.UserId) cfg f v with ⟨_ | c', text⟩
      · simp [hsw] at hmem
      · simp only [hsw, List.mem_singleton, Prod.mk.injEq] at hmem
        obtain ⟨rfl, rfl⟩ := hmem
        exact ⟨f, v, text, rfl, hsee, rfl, hsw⟩
  · by_cases hsee : f = "see" <;>
      simp [executeSettingsCommand, hload, hsee, jitsiSettingsSeeCommand, newCalls,
        settingsError, setUserConfigCalls] at hmem

/-- C11, as stated, fails on a loaded record whose naming scheme is `bogus`: the update
`embedded true` writes the record back with the naming scheme `bogus`, none of the four
values. -/
theorem update_writes_back_loaded_naming_scheme :
    setUserConfigCalls (newCalls demoWorldBogus (executeSettingsCommand demoPlugin demoWorldBogus
        (demoArgs "/jitsi settings embedded true") ["embedded", "true"]))
      = [("u", ⟨true, true, "bogus"⟩)] ∧
    ¬ namingSchemeValid "bogus" :=
  ⟨by decide, by decide⟩

/-- C11, amended: when the loaded record has one of the four naming schemes, or the field
being updated is `naming_scheme`, every record that `executeSettingsCommand` passes to
`setUserConfig` has one of the four naming schemes; an update of another field writes the
loaded naming scheme back unchanged. -/
theorem written_naming_scheme_valid {S : Type} (p : Plugin S) (w : World S) (args : CommandArgs)
    (cfg : UserConfig) (parameters : List String)
    (hload : p.getUserConfig w.store args.UserId = .ok cfg) :
    ∀ u c, (u, c) ∈ setUserConfigCalls (newCalls w (executeSettingsCommand p w args parameters)) →
      ((namingSchemeValid cfg.NamingScheme ∨ parameters.head? = some "naming_scheme") →
        namingSchemeValid c.NamingScheme) ∧
      (parameters.head? ≠ some "naming_scheme" → c.NamingScheme = cfg.NamingScheme) := by
  intro u c hmem
  obtain ⟨f, v, text, rfl, -, -, hsw⟩ :=
    setUserConfigCalls_mem p w args cfg parameters u c hload hmem
  have hv := validPair_of_settingsSwitch p _ cfg c f v text hsw
  rcases settingsSwitch_some p _ cfg c f v text hsw with ⟨rfl, rfl⟩ | ⟨rfl, rfl⟩ | ⟨rfl, rfl⟩
  · simp
  · simp
  · refine ⟨fun _ => ?_, fun h => absurd rfl h⟩
    simp only [validPair, String.reduceEq, false_and, true_and, false_or] at hv
    rcases hv with rfl | rfl | rfl | rfl <;> simp [namingSchemeValid]

/-- C11, amended, at the update `naming_scheme uuid` of a loaded record whose naming scheme is
`bogus`: the record written has the scheme `uuid`, one of the four. -/
theorem written_naming_scheme_valid_witness :
    ("u", (⟨false, true, "uuid"⟩ : UserConfig)) ∈
      setUserConfigCalls (newCalls demoWorldBogus (executeSettingsCommand demoPlugin
        demoWorldBogus (demoArgs "/jitsi settings naming_scheme uuid")
        ["naming_scheme", "uuid"])) ∧
    namingSchemeValid (⟨false, true, "uuid"⟩ : UserConfig).NamingScheme :=
  ⟨by decide,
   (written_naming_scheme_valid demoPlugin demoWorldBogus
      (demoArgs "/jitsi settings naming_scheme uuid") ⟨false, true, "bogus"⟩
      ["naming_scheme", "uuid"] rfl "u" ⟨false, true, "uuid"⟩ (by decide)).1 (Or.inr rfl)⟩

/-! ## Commands of another trigger -/

/-- C12: when the command has a first token and it is not exactly `/jitsi`, `ExecuteCommand`
returns the empty response and no error and leaves the world as it was: the run makes no
collaborator call at all. -/
theorem other_trigger_is_noop {S : Type} (p : Plugin S) (w : World S) (args : CommandArgs)
    (t : String) (h : (Fields args.Command).head? = some t) (hne : t ≠ "/jitsi") :
    ExecuteCommand p w args = some (({}, none), w) ∧
    ∀ r, ExecuteCommand p w args = some r → newCalls w r = [] := by
  have hrun : ExecuteCommand p w args = some (({}, none), w) := by
    unfold ExecuteCommand
    rcases hf : Fields args.Command with _ | ⟨c, rest⟩
    · simp [hf] at h
    · simp only [hf, List.head?_cons, Option.some.injEq] at h
      subst h
      simp [jitsiCommand, hne]
  refine ⟨hrun, ?_⟩
  intro r hr
  rw [hrun] at hr
  simp only [Option.some.injEq] at hr
  subst hr
  simp [newCalls]

/-- C12 at `/Jitsi help`, whose trigger differs from `/jitsi` in case. -/
theorem other_trigger_is_noop_witness :
    (Fields (demoArgs "/Jitsi help").Command).head? = some "/Jitsi" ∧
    ExecuteCommand demoPlugin demoWorld (demoArgs "/Jitsi help") = some (({}, none), demoWorld) :=
  ⟨by decide,
   (other_trigger_is_noop demoPlugin demoWorld (demoArgs "/Jitsi help") "/Jitsi" (by decide)
      (by decide)).1⟩

/-! ## A failing settings load -/

/-- C13, as stated, fails on the start-meeting route: with a failing settings load, `/jitsi`
sends no ephemeral post and answers with the generic start-meeting text, not with the
settings-load message. -/
theorem start_route_load_failure_is_generic :
    (ExecuteCommand loadFailsPlugin demoWorld (demoArgs "/jitsi")).map
        (fun r => (r.1.1.Text, ephemeralPosts (newCalls demoWorld r)))
      = some ("We could not start a meeting at this time.", []) ∧
    loadFailsPlugin.LocalizeWithConfig "en"
        { ID := "jitsi.command.settings.unable_to_get", Other := "Unable to get user settings" }
      ≠ "We could not start a meeting at this time." :=
  ⟨rfl, by decide⟩

/-- C13, amended: when `getUserConfig` fails, both routes that read the settings store stop
without calling `setUserConfig`, `startMeeting` or `askMeetingType`. The settings route posts
the settings-load message (key `jitsi.command.settings.unable_to_get`, default text "Unable to
get user settings"); the start-meeting route posts nothing and returns the generic
start-meeting failure (ephemeral response and error message "We could not start a meeting at
this time."). -/
theorem load_failure_stops_both_routes {S : Type} (p : Plugin S) (w : World S)
    (args : CommandArgs) (e : String)
    (hload : p.getUserConfig w.store args.UserId = .error e) :
    (∀ parameters,
      newCalls w (executeSettingsCommand p w args parameters) =
        [.getUserConfig args.UserId, .Debug "Unable to get user config",
         .SendEphemeralPost args.UserId
           { UserId := p.botID, ChannelId := args.ChannelId,
             Message := p.LocalizeWithConfig (p.GetUserLocalizer args.UserId)
               { ID := "jitsi.command.settings.unable_to_get",
                 Other := "Unable to get user settings" },
             RootId := args.RootId }]) ∧
    setUserConfigCalls (newCalls w (executeStartMeetingCommand p w args)) = [] ∧
    startMeetingCalls (newCalls w (executeStartMeetingCommand p w args)) = [] ∧
    askMeetingTypeCalls (newCalls w (executeStartMeetingCommand p w args)) = [] ∧
    ephemeralPosts (newCalls w (executeStartMeetingCommand p w args)) = [] ∧
    (executeStartMeetingCommand p w args).1.1 =
      { ResponseType := "ephemeral", ChannelId := args.ChannelId,
        Text := "We could not start a meeting at this time." } ∧
    ∃ detail, (executeStartMeetingCommand p w args).1.2 =
      some { Message := "We could not start a meeting at this time.",
             DetailedError := detail } := by
  refine ⟨?_, ?_⟩
  · intro parameters
    simp [executeSettingsCommand, hload, settingsError, newCalls]
  · unfold executeStartMeetingCommand
    rcases hu : p.GetUser args.UserId with eu | user
    · simp [newCalls, startMeetingError, setUserConfigCalls, startMeetingCalls,
        askMeetingTypeCalls, ephemeralPosts, CommandResponseTypeEphemeral]
    · rcases hc : p.GetChannel args.ChannelId with ec | channel
      · simp [newCalls, startMeetingError, setUserConfigCalls, startMeetingCalls,
          askMeetingTypeCalls, ephemeralPosts, CommandResponseTypeEphemeral]
      · simp [hload, newCalls, startMeetingError, setUserConfigCalls, startMeetingCalls,
          askMeetingTypeCalls, ephemeralPosts, CommandResponseTypeEphemeral]

/-- C13, amended, on the plugin whose settings load fails: the settings route posts the
settings-load message and the start-meeting route starts nothing. -/
theorem load_failure_stops_both_routes_witness :
    (∀ parameters,
      newCalls demoWorld (executeSettingsCommand loadFailsPlugin demoWorld
          (demoArgs "/jitsi settings see") parameters) =
        [.getUserConfig "u", .Debug "Unable to get user config",
         .SendEphemeralPost "u"
           { UserId := "bot", ChannelId := "c",
             Message := loadFailsPlugin.LocalizeWithConfig "en"
               { ID := "jitsi.command.settings.unable_to_get",
                 Other := "Unable to get user settings" },
             RootId := "r" }]) ∧
    startMeetingCalls (newCalls demoWorld (executeStartMeetingCommand loadFailsPlugin demoWorld
      (demoArgs "/jitsi settings see"))) = [] :=
  ⟨(load_failure_stops_both_routes loadFailsPlugin demoWorld (demoArgs "/jitsi settings see")
      "store down" rfl).1,
   (load_failure_stops_both_routes loadFailsPlugin demoWorld (demoArgs "/jitsi settings see")
      "store down" rfl).2.2.1⟩

/-! ## The answer to a settings update -/

/-- C15: on a valid (field, value) pair one record goes to `setUserConfig`; when that save
succeeds the one post is the localization of the message `jitsi.command.settings.updated`
whose default text is "Jitsi settings updated:", an empty line, then the field token, a colon
and the value token between backticks; when the save fails the one post is the localization of
`jitsi.command.settings.unable_to_set` and no confirmation is posted. -/
theorem update_confirmation_or_save_error {S : Type} (p : Plugin S) (w : World S)
    (args : CommandArgs) (cfg : UserConfig) (field value : String)
    (hload : p.getUserConfig w.store args.UserId = .ok cfg) (hvalid : validPair field value) :
    ∃ c,
      setUserConfigCalls (newCalls w (executeSettingsCommand p w args [field, value]))
        = [(args.UserId, c)] ∧
      ((p.setUserConfig w.store args.UserId c).1 = none →
        ephemeralPosts (newCalls w (executeSettingsCommand p w args [field, value])) =
          [(args.UserId,
            { UserId := p.botID, ChannelId := args.ChannelId,
              Message := p.LocalizeWithConfig (p.GetUserLocalizer args.UserId)
                { ID := "jitsi.command.settings.updated",
                  Other := "Jitsi settings updated:\n\n* " ++ field ++ ": \x60" ++ value ++ "\x60" },
              RootId := args.RootId })]) ∧
      ((p.setUserConfig w.store args.UserId c).1 ≠ none →
        ephemeralPosts (newCalls w (executeSettingsCommand p w args [field, value])) =
          [(args.UserId,
            { UserId := p.botID, ChannelId := args.ChannelId,
              Message := p.LocalizeWithConfig (p.GetUserLocalizer args.UserId)
                { ID := "jitsi.command.settings.unable_to_set",
                  Other := "Unable to set user settings" },
              RootId := args.RootId })]) := by
  have hsee := validPair_ne_see field value hvalid
  obtain ⟨c, hc⟩ := settingsSwitch_valid p (p.GetUserLocalizer args.UserId) cfg field value hvalid
  refine ⟨c, ?_, ?_, ?_⟩
  · rw [setUserConfigCalls_pair p w args cfg field value hload hsee, hc]
  · intro hok
    rcases hset : p.setUserConfig w.store args.UserId c with ⟨o, st⟩
    rw [hset] at hok
    simp only at hok
    subst hok
    simp [executeSettingsCommand, hload, hsee, hc, hset, jitsiSettingsSeeCommand, newCalls,
      ephemeralPosts]
  · intro hfail
    rcases hset : p.setUserConfig w.store args.UserId c with ⟨_ | e, st⟩
    · rw [hset] at hfail
      exact absurd rfl hfail
    · simp [executeSettingsCommand, hload, hsee, hc, hset, jitsiSettingsSeeCommand, newCalls,
        settingsError, ephemeralPosts]

/-- C15 at `/jitsi settings embedded true` on the plugin whose localizer returns the default
text: the post reads "Jitsi settings updated:", an empty line and the line of the field. -/
theorem update_confirmation_or_save_error_witness :
    validPair "embedded" "true" ∧
    ephemeralPosts (newCalls demoWorld (executeSettingsCommand defaultTextPlugin demoWorld
        (demoArgs "/jitsi settings embedded true") ["embedded", "true"])) =
      [("u", { UserId := "bot", ChannelId := "c",
               Message := "Jitsi settings updated:\n\n* embedded: \x60true\x60",
               RootId := "r" })] := by
  refine ⟨by decide, ?_⟩
  obtain ⟨c, -, hok, -⟩ := update_confirmation_or_save_error defaultTextPlugin demoWorld
    (demoArgs "/jitsi settings embedded true") ⟨false, true, "words"⟩ "embedded" "true" rfl
    (by decide)
  exact hok rfl

/-! ## Failures of the start-meeting handler -/

/-- A failing run of the start-meeting handler returns what `startMeetingError` builds for the
channel of the invocation, and posts nothing. -/
theorem executeStartMeetingCommand_failure {S : Type} (p : Plugin S) (w : World S)
    (args : CommandArgs) (h : (executeStartMeetingCommand p w args).1.2 ≠ none) :
    (∃ detail, (executeStartMeetingCommand p w args).1 = startMeetingError args.ChannelId detail) ∧
    ephemeralPosts (newCalls w (executeStartMeetingCommand p w args)) = [] := by
  revert h
  unfold executeStartMeetingCommand
  rcases hu : p.GetUser args.UserId with eu | user
  · intro _; exact ⟨⟨_, rfl⟩, by simp [newCalls, ephemeralPosts]⟩
  · rcases hc : p.GetChannel args.ChannelId with ec | channel
    · intro _; exact ⟨⟨_, rfl⟩, by simp [newCalls, ephemeralPosts]⟩
    · rcases hl : p.getUserConfig w.store args.UserId with el | cfg
      · intro _
        simp only [World.log_store, hl]
        exact ⟨⟨_, rfl⟩, by simp [newCalls, ephemeralPosts]⟩
      · simp only [World.log_store, hl]
        by_cases hcond : cfg.NamingScheme = jitsiNameSchemeAsk ∧ startMeetingInput args.Command = ""
        · rw [if_pos hcond]
          rcases ha : p.askMeetingType user channel args.RootId with _ | ea
          · intro h; simp at h
          · intro _; exact ⟨⟨_, rfl⟩, by simp [newCalls, ephemeralPosts]⟩
        · rw [if_neg hcond]
          rcases hs : p.startMeeting user channel "" (startMeetingInput args.Command) false
              args.RootId with es | m
          · intro _; exact ⟨⟨_, rfl⟩, by simp [newCalls, ephemeralPosts]⟩
          · intro h; simp at h

/-- A failing step makes the start-meeting handler return an error. -/
theorem executeStartMeetingCommand_of_failing_step {S : Type} (p : Plugin S) (w : World S)
    (args : CommandArgs) (h : StartStepFails p w args) :
    (executeStartMeetingCommand p w args).1.2 ≠ none := by
  unfold executeStartMeetingCommand
  rcases h with ⟨e, hu⟩ | ⟨user, e, hu, hc⟩ | ⟨user, channel, e, hu, hc, hl⟩ |
    ⟨user, channel, cfg, e, hu, hc, hl, hcond, ha⟩ |
    ⟨user, channel, cfg, e, hu, hc, hl, hcond, hs⟩
  · simp [hu, startMeetingError]
  · simp [hu, hc, startMeetingError]
  · simp [hu, hc, hl, startMeetingError]
  · simp [hu, hc, hl, hcond.1, hcond.2, ha, jitsiNameSchemeAsk, startMeetingError]
  · simp [hu, hc, hl, hcond, hs, jitsiNameSchemeAsk, startMeetingError]

/-- C16: take two start-meeting invocations in the same channel, in each of which a step fails
(user lookup, channel lookup, settings load, naming prompt or meeting start), with whatever
error. Both return the same response, of ephemeral type, with the channel id and the text
"We could not start a meeting at this time."; both return an error whose message is that same
text; neither posts anything. Only the detailed error can differ. -/
theorem start_failures_look_alike {S₁ S₂ : Type} (p₁ : Plugin S₁) (w₁ : World S₁)
    (args₁ : CommandArgs) (p₂ : Plugin S₂) (w₂ : World S₂) (args₂ : CommandArgs)
    (hchannel : args₁.ChannelId = args₂.ChannelId)
    (hfail₁ : StartStepFails p₁ w₁ args₁)
    (hfail₂ : StartStepFails p₂ w₂ args₂) :
    (executeStartMeetingCommand p₁ w₁ args₁).1.1 = (executeStartMeetingCommand p₂ w₂ args₂).1.1 ∧
    (executeStartMeetingCommand p₁ w₁ args₁).1.1 =
      { ResponseType := "ephemeral", ChannelId := args₁.ChannelId,
        Text := "We could not start a meeting at this time." } ∧
    (∃ d₁ d₂,
      (executeStartMeetingCommand p₁ w₁ args₁).1.2 =
        some { Message := "We could not start a meeting at this time.", DetailedError := d₁ } ∧
      (executeStartMeetingCommand p₂ w₂ args₂).1.2 =
        some { Message := "We could not start a meeting at this time.", DetailedError := d₂ }) ∧
    ephemeralPosts (newCalls w₁ (executeStartMeetingCommand p₁ w₁ args₁)) = [] ∧
    ephemeralPosts (newCalls w₂ (executeStartMeetingCommand p₂ w₂ args₂)) = [] := by
  obtain ⟨⟨d₁, h₁⟩, hp₁⟩ := executeStartMeetingCommand_failure p₁ w₁ args₁
    (executeStartMeetingCommand_of_failing_step p₁ w₁ args₁ hfail₁)
  obtain ⟨⟨d₂, h₂⟩, hp₂⟩ := executeStartMeetingCommand_failure p₂ w₂ args₂
    (executeStartMeetingCommand_of_failing_step p₂ w₂ args₂ hfail₂)
  refine ⟨?_, ?_, ⟨d₁, d₂, ?_, ?_⟩, hp₁, hp₂⟩
  · rw [h₁, h₂, hchannel]
    rfl
  · rw [h₁]
    rfl
  · rw [h₁]
    rfl
  · rw [h₂]
    rfl

/-- C16 on a failing naming prompt (scheme `ask`, empty topic) and a failing user lookup, both
in channel `c`: the two responses are equal and carry the generic text. -/
theorem start_failures_look_alike_witness :
    StartStepFails promptFailsPlugin demoWorldAsk (demoArgs "/jitsi") ∧
    StartStepFails silentPlugin demoWorld (demoArgs "/jitsi start standup") ∧
    (executeStartMeetingCommand promptFailsPlugin demoWorldAsk (demoArgs "/jitsi")).1.1
      = (executeStartMeetingCommand silentPlugin demoWorld
          (demoArgs "/jitsi start standup")).1.1 ∧
    (executeStartMeetingCommand promptFailsPlugin demoWorldAsk (demoArgs "/jitsi")).1.1
      = { ResponseType := "ephemeral", ChannelId := "c",
          Text := "We could not start a meeting at this time." } :=
  have h₁ : StartStepFails promptFailsPlugin demoWorldAsk (demoArgs "/jitsi") :=
    Or.inr (Or.inr (Or.inr (Or.inl
      ⟨⟨"u"⟩, ⟨"c"⟩, ⟨false, true, "ask"⟩, "dialog failed", rfl, rfl, rfl,
        ⟨rfl, by decide⟩, rfl⟩)))
  have h₂ : StartStepFails silentPlugin demoWorld (demoArgs "/jitsi start standup") :=
    Or.inl ⟨"no such user", rfl⟩
  ⟨h₁, h₂,
   (start_failures_look_alike promptFailsPlugin demoWorldAsk (demoArgs "/jitsi")
      silentPlugin demoWorld (demoArgs "/jitsi start standup") rfl h₁ h₂).1,
   (start_failures_look_alike promptFailsPlugin demoWorldAsk (demoArgs "/jitsi")
      silentPlugin demoWorld (demoArgs "/jitsi start standup") rfl h₁ h₂).2.1⟩

/-- C18 at `/jitsi standup` on a meeting subsystem that fails with `jitsi unreachable`: the
detailed error of the result is `startMeeting() threw error: <nil>`, which does not contain the
message of the error that made the step fail. -/
theorem start_failure_detail_drops_cause :
    startFailsPlugin.startMeeting ⟨"u"⟩ ⟨"c"⟩ "" "standup" false "r"
      = .error "jitsi unreachable" ∧
    (executeStartMeetingCommand startFailsPlugin demoWorld (demoArgs "/jitsi standup")).1.2
      = some { Message := "We could not start a meeting at this time.",
               DetailedError := "startMeeting() threw error: <nil>" } :=
  ⟨rfl, by decide⟩

/-! ## Tokenisation -/

/-- C19 at the empty command and at a command of white space only: `strings.Fields` returns
no token and `ExecuteCommand` faults on `split[0]`. -/
theorem ExecuteCommand_faults_without_token :
    Fields "" = [] ∧ Fields " \t " = [] ∧
    ExecuteCommand demoPlugin demoWorld (demoArgs "") = none ∧
    ExecuteCommand demoPlugin demoWorld (demoArgs " \t ") = none :=
  ⟨by decide, by decide, rfl, rfl⟩

/-! ## One post per settings invocation -/

/-- C20: whatever the parameters, the loaded record and the outcomes of the store calls, one
run of `executeSettingsCommand` sends exactly one ephemeral post, to the invoking user, from
the bot, with the channel id and the root id of the invocation, and returns the empty response
and no error. -/
theorem settings_run_posts_once {S : Type} (p : Plugin S) (w : World S) (args : CommandArgs)
    (parameters : List String) :
    (∃ message,
      ephemeralPosts (newCalls w (executeSettingsCommand p w args parameters)) =
        [(args.UserId,
          { UserId := p.botID, ChannelId := args.ChannelId, Message := message,
            RootId := args.RootId })]) ∧
    (executeSettingsCommand p w args parameters).1 = ({}, none) := by
  unfold executeSettingsCommand
  rcases hload : p.getUserConfig w.store args.UserId with e | cfg
  · simp [hload, settingsError, newCalls, ephemeralPosts]
  · by_cases hview : parameters.length = 0 ∨ parameters.head? = some jitsiSettingsSeeCommand
    · simp only [World.log_store, hload, if_pos hview]
      simp [newCalls, ephemeralPosts]
    · simp only [World.log_store, hload, if_neg hview]
      rcases parameters with _ | ⟨f, _ | ⟨v, _ | ⟨x, xs⟩⟩⟩
      · simp [settingsError, newCalls, ephemeralPosts]
      · simp [settingsError, newCalls, ephemeralPosts]
      · rcases hsw : settingsSwitch p (p.GetUserLocalizer args.UserId) cfg f v with ⟨_ | c, text⟩
        · simp [hsw, settingsError, newCalls, ephemeralPosts]
        · rcases hset : p.setUserConfig w.store args.UserId c with ⟨_ | e, st⟩ <;>
            simp [hsw, hset, settingsError, newCalls, ephemeralPosts]
      · simp [settingsError, newCalls, ephemeralPosts]

/-! ## The topic after `start` -/

/-- Removing trailing characters from `x :: l`: when nothing of `l` is left, what is left of
`[x]`; otherwise `x` followed by what is left of `l`. -/
theorem rdropWhile_cons {α : Type} [DecidableEq α] (p : α → Bool) (x : α) (l : List α) :
    List.rdropWhile p (x :: l) =
      if List.rdropWhile p l = [] then List.rdropWhile p [x] else x :: List.rdropWhile p l := by
  induction l using List.reverseRecOn with
  | nil => simp
  | append_singleton l y ih =>
    rw [← List.cons_append, List.rdropWhile_concat, List.rdropWhile_concat]
    by_cases hy : p y = true
    · simp only [hy, if_true]
      exact ih
    · simp [hy]

/-- A character that is kept shields what precedes it. -/
theorem rdropWhile_append_cons_of_neg {α : Type} [DecidableEq α] (p : α → Bool) (a : List α)
    (c : α)
    (l : List α) (hc : ¬ p c = true) :
    List.rdropWhile p (a ++ c :: l) = a ++ c :: List.rdropWhile p l := by
  induction a with
  | nil =>
    rw [List.nil_append, rdropWhile_cons]
    by_cases h : List.rdropWhile p l = []
    · simp [h, List.rdropWhile_singleton, hc]
    · simp [h]
  | cons x a ih =>
    rw [List.cons_append, rdropWhile_cons, ih]
    simp

/-- Trimming on the left and trimming on the right commute. -/
theorem dropWhile_rdropWhile_comm {α : Type} [DecidableEq α] (p : α → Bool) (l : List α) :
    List.dropWhile p (List.rdropWhile p l) = List.rdropWhile p (List.dropWhile p l) := by
  induction l with
  | nil => simp
  | cons x l ih =>
    by_cases hx : p x = true
    · rw [List.dropWhile_cons_of_pos hx, rdropWhile_cons]
      by_cases h : List.rdropWhile p l = []
      · rw [if_pos h, ← ih, h]
        simp [List.rdropWhile_singleton, hx]
      · rw [if_neg h, List.dropWhile_cons_of_pos hx, ih]
    · have hcons := rdropWhile_append_cons_of_neg p [] x l hx
      rw [List.nil_append] at hcons
      rw [List.dropWhile_cons_of_neg hx, hcons]
      simp [hx]

/-- In terms of the library functions, `trimSpaceChars` trims left, then right. -/
theorem trimSpaceChars_eq (l : List Char) :
    trimSpaceChars l = List.rdropWhile isSpace (List.dropWhile isSpace l) := rfl

/-- A prefix that is present is removed. -/
theorem trimPrefixChars_append (pre l : List Char) : trimPrefixChars (pre ++ l) pre = l := by
  unfold trimPrefixChars
  rw [if_pos (List.isPrefixOf_iff_prefix.mpr (List.prefix_append pre l)), List.drop_left]

/-- The two trims and the two prefix removals of `startMeetingInput`, on characters: after the
trigger, white space, `start`, white space and a text, the text trimmed is left. -/
theorem startMeetingInput_chars (ws₁ ws₂ T : List Char)
    (h₁ : ∀ c ∈ ws₁, isSpace c = true) (h₂ : ∀ c ∈ ws₂, isSpace c = true) :
    trimSpaceChars (trimPrefixChars (trimSpaceChars (trimPrefixChars
        (['/', 'j', 'i', 't', 's', 'i'] ++ (ws₁ ++ (['s', 't', 'a', 'r', 't'] ++ (ws₂ ++ T))))
        ['/', 'j', 'i', 't', 's', 'i'])) ['s', 't', 'a', 'r', 't'])
      = trimSpaceChars T := by
  rw [trimPrefixChars_append]
  have hs : ¬ isSpace 's' = true := by decide
  have ht : ¬ isSpace 't' = true := by decide
  have h2 : trimSpaceChars (ws₁ ++ (['s', 't', 'a', 'r', 't'] ++ (ws₂ ++ T)))
      = ['s', 't', 'a', 'r', 't'] ++ List.rdropWhile isSpace (ws₂ ++ T) := by
    rw [trimSpaceChars_eq, List.dropWhile_append_of_pos h₁]
    have : (['s', 't', 'a', 'r', 't'] ++ (ws₂ ++ T)) = 's' :: (['t', 'a', 'r'] ++ 't' :: (ws₂ ++ T)) :=
      rfl
    rw [this, List.dropWhile_cons_of_neg hs, ← List.cons_append,
      rdropWhile_append_cons_of_neg isSpace _ 't' _ ht]
    rfl
  rw [h2, trimPrefixChars_append, trimSpaceChars_eq, dropWhile_rdropWhile_comm,
    List.rdropWhile_idempotent, List.dropWhile_append_of_pos h₂, trimSpaceChars_eq]

/-- C14: for every text `T` and all white space `ws₁`, `ws₂` (of any length), the command made
of `/jitsi`, `ws₁`, `start`, `ws₂` and `T` makes `executeStartMeetingCommand` compute the topic
`T` with leading and trailing white space removed; `/jitsi start` and `/jitsi` compute the
empty topic. -/
theorem start_topic_is_trimmed_text (ws₁ ws₂ T : String)
    (h₁ : ∀ c ∈ ws₁.data, isSpace c = true) (h₂ : ∀ c ∈ ws₂.data, isSpace c = true) :
    startMeetingInput ("/jitsi" ++ ws₁ ++ "start" ++ ws₂ ++ T) = TrimSpace T ∧
    startMeetingInput "/jitsi start" = "" ∧ startMeetingInput "/jitsi" = "" := by
  refine ⟨?_, by decide, by decide⟩
  have hdata : ("/jitsi" ++ ws₁ ++ "start" ++ ws₂ ++ T).data
      = ['/', 'j', 'i', 't', 's', 'i'] ++ (ws₁.data ++ (['s', 't', 'a', 'r', 't'] ++
          (ws₂.data ++ T.data))) := by
    simp only [String.data_append, List.append_assoc]
  have hJ : ("/" ++ jitsiCommand).data = ['/', 'j', 'i', 't', 's', 'i'] := rfl
  have hS : jitsiStartCommand.data = ['s', 't', 'a', 'r', 't'] := rfl
  simp only [startMeetingInput, TrimSpace, TrimPrefix, hJ, hS, hdata]
  rw [startMeetingInput_chars ws₁.data ws₂.data T.data h₁ h₂]

/-- C14 at `/jitsi`, a tab, `start`, two blanks and the text `start the sprint` followed by a
blank. -/
theorem start_topic_is_trimmed_text_witness :
    startMeetingInput ("/jitsi" ++ "\t" ++ "start" ++ "  " ++ "start the sprint ")
      = TrimSpace "start the sprint " ∧
    TrimSpace "start the sprint " = "start the sprint" :=
  ⟨(start_topic_is_trimmed_text "\t" "  " "start the sprint " (by decide) (by decide)).1,
   by decide⟩

/-! ## Where the user-visible text comes from -/

/-- The text of a rejection by the switch is the output of one localizer call, without
template data, for a message other than the confirmation. -/
theorem settingsSwitch_none {S : Type} (p : Plugin S) (l : String) (cfg : UserConfig)
    (field value text : String) (h : settingsSwitch p l cfg field value = (none, text)) :
    ∃ c : LocalizeConfig, text = p.LocalizeWithConfig l c ∧ c.TemplateData = [] ∧
      c.ID ≠ "jitsi.command.settings.updated" := by
  unfold settingsSwitch at h
  split_ifs at h <;> simp only [Prod.mk.injEq, reduceCtorEq, false_and, true_and] at h <;>
    exact ⟨_, h.symm, rfl, by decide⟩

/-- C17, as stated, fails twice. On a failing user lookup the response text of `/jitsi` is the
literal "We could not start a meeting at this time." although every localizer output is empty.
And with a localizer that ignores the template data, the confirmation of
`/jitsi settings embedded true` still shows the two tokens typed: they are part of the default
text. -/
theorem visible_text_outside_the_localizer :
    (ExecuteCommand silentPlugin demoWorld (demoArgs "/jitsi")).map (fun r => r.1.1.Text)
      = some "We could not start a meeting at this time." ∧
    (∀ l c, silentPlugin.LocalizeWithConfig l c = "") ∧
    ReplaceAllBarBacktick "" = "" ∧
    ephemeralPosts (newCalls demoWorld (executeSettingsCommand defaultTextPlugin demoWorld
        (demoArgs "/jitsi settings embedded true") ["embedded", "true"])) =
      [("u", { UserId := "bot", ChannelId := "c",
               Message := "Jitsi settings updated:\n\n* embedded: \x60true\x60",
               RootId := "r" })] ∧
    (∀ l c td, defaultTextPlugin.LocalizeWithConfig l { c with TemplateData := td }
      = defaultTextPlugin.LocalizeWithConfig l c) :=
  ⟨rfl, fun _ _ => rfl, by decide, by decide, fun _ _ _ => rfl⟩

/-- C17, amended: for every localizer, the one post of the help handler is the localized help
title followed by the localized help text after the replacement of the bars; the one post of
the settings handler is the output of one localizer call, as it is or after that replacement;
template data is passed only with the fixed key and default text of the current-values
message; the confirmation message has no template data, its default text is built from the
field and value tokens; the start-meeting handler posts nothing; the response text is empty on
every route except a failing start-meeting run, whose response text and error message are the
literal "We could not start a meeting at this time." -/
theorem visible_text_sources {S : Type} (p : Plugin S) (w : World S) (args : CommandArgs) :
    (ephemeralPosts (newCalls w (executeHelpCommand p w args)) =
        [(args.UserId,
          { UserId := p.botID, ChannelId := args.ChannelId,
            Message :=
              p.LocalizeWithConfig (p.GetUserLocalizer args.UserId)
                { ID := "jitsi.command.help.title", Other := helpTitleOther } ++
              ReplaceAllBarBacktick (p.LocalizeWithConfig (p.GetUserLocalizer args.UserId)
                { ID := "jitsi.command.help.text", Other := commandHelpOther }),
            RootId := args.RootId })] ∧
      (executeHelpCommand p w args).1 = ({}, none)) ∧
    (∀ parameters, ∃ c : LocalizeConfig,
      (ephemeralPosts (newCalls w (executeSettingsCommand p w args parameters)) =
          [(args.UserId,
            { UserId := p.botID, ChannelId := args.ChannelId,
              Message := p.LocalizeWithConfig (p.GetUserLocalizer args.UserId) c,
              RootId := args.RootId })] ∨
        ephemeralPosts (newCalls w (executeSettingsCommand p w args parameters)) =
          [(args.UserId,
            { UserId := p.botID, ChannelId := args.ChannelId,
              Message :=
                ReplaceAllBarBacktick (p.LocalizeWithConfig (p.GetUserLocalizer args.UserId) c),
              RootId := args.RootId })]) ∧
      (c.TemplateData ≠ [] →
        c.ID = "jitsi.command.settings.current_values" ∧ c.Other = currentValuesOther) ∧
      (c.ID = "jitsi.command.settings.updated" →
        c.TemplateData = [] ∧
        ∃ field value, parameters = [field, value] ∧
          c.Other = "Jitsi settings updated:\n\n* " ++ field ++ ": \x60" ++ value ++ "\x60") ∧
      (executeSettingsCommand p w args parameters).1 = ({}, none)) ∧
    (ephemeralPosts (newCalls w (executeStartMeetingCommand p w args)) = [] ∧
      ((executeStartMeetingCommand p w args).1 = ({}, none) ∨
        ∃ detail,
          (executeStartMeetingCommand p w args).1 =
            ({ ResponseType := "ephemeral", ChannelId := args.ChannelId,
               Text := "We could not start a meeting at this time." },
             some { Message := "We could not start a meeting at this time.",
                    DetailedError := detail }))) := by
  refine ⟨⟨?_, rfl⟩, ?_, ?_⟩
  · simp [executeHelpCommand, newCalls, ephemeralPosts]
  · intro parameters
    unfold executeSettingsCommand
    rcases hload : p.getUserConfig w.store args.UserId with e | cfg
    · refine ⟨{ ID := "jitsi.command.settings.unable_to_get",
                Other := "Unable to get user settings" }, Or.inl ?_, ?_, ?_, ?_⟩
      · simp [hload, settingsError, newCalls, ephemeralPosts]
      · simp
      · intro h; exact absurd h (by decide)
      · simp [hload, settingsError]
    · by_cases hview : parameters.length = 0 ∨ parameters.head? = some jitsiSettingsSeeCommand
      · simp only [World.log_store, hload, if_pos hview]
        refine ⟨{ ID := "jitsi.command.settings.current_values", Other := currentValuesOther,
                  TemplateData := [("Embedded", sprintBool cfg.Embedded),
                    ("ShowPrejoinPage", sprintBool cfg.ShowPrejoinPage),
                    ("NamingScheme", cfg.NamingScheme)] }, Or.inr ?_, ?_, ?_, ?_⟩
        · simp [newCalls, ephemeralPosts]
        · intro _; exact ⟨rfl, rfl⟩
        · intro h; simp at h
        · simp
      · simp only [World.log_store, hload, if_neg hview]
        rcases parameters with _ | ⟨f, _ | ⟨v, _ | ⟨x, xs⟩⟩⟩
        · exact absurd (Or.inl rfl) hview
        · refine ⟨{ ID := "jitsi.command.settings.invalid_parameters",
                    Other := "Invalid settings parameters" }, Or.inl ?_, ?_, ?_, rfl⟩
          · simp [settingsError, newCalls, ephemeralPosts]
          · simp
          · intro h; exact absurd h (by decide)
        · rcases hsw : settingsSwitch p (p.GetUserLocalizer args.UserId) cfg f v with
            ⟨_ | c, text⟩
          · obtain ⟨lc, htext, htd, hid⟩ := settingsSwitch_none p _ cfg f v text hsw
            refine ⟨lc, Or.inl ?_, ?_, ?_, ?_⟩
            · simp [hsw, htext, settingsError, newCalls, ephemeralPosts]
            · intro h; exact absurd htd h
            · intro h; exact absurd h hid
            · simp [hsw, settingsError]
          · rcases hset : p.setUserConfig w.store args.UserId c with ⟨_ | e, st⟩
            · refine ⟨{ ID := "jitsi.command.settings.updated",
                        Other := "Jitsi settings updated:\n\n* " ++ f ++ ": \x60" ++ v ++ "\x60" },
                Or.inl ?_, ?_, ?_, ?_⟩
              · simp [hsw, hset, newCalls, ephemeralPosts]
              · simp
              · intro _; exact ⟨rfl, f, v, rfl, rfl⟩
              · simp [hsw, hset]
            · refine ⟨{ ID := "jitsi.command.settings.unable_to_set",
                        Other := "Unable to set user settings" }, Or.inl ?_, ?_, ?_, ?_⟩
              · simp [hsw, hset, settingsError, newCalls, ephemeralPosts]
              · simp
              · intro h; exact absurd h (by decide)
              · simp [hsw, hset, settingsError]
        · refine ⟨{ ID := "jitsi.command.settings.invalid_parameters",
                    Other := "Invalid settings parameters" }, Or.inl ?_, ?_, ?_, rfl⟩
          · simp [settingsError, newCalls, ephemeralPosts]
          · simp
          · intro h; exact absurd h (by decide)
  · by_cases hfail : (executeStartMeetingCommand p w args).1.2 = none
    · refine ⟨?_, Or.inl ?_⟩
      · revert hfail
        unfold executeStartMeetingCommand
        rcases hu : p.GetUser args.UserId with eu | user
        · simp [startMeetingError]
        · rcases hc : p.GetChannel args.ChannelId with ec | channel
          · simp [startMeetingError]
          · rcases hl : p.getUserConfig w.store args.UserId with el | cfg
            · simp [hl, startMeetingError]
            · simp only [World.log_store, hl]
              split_ifs
              · rcases ha : p.askMeetingType user channel args.RootId with _ | ea <;>
                  simp [startMeetingError, newCalls, ephemeralPosts]
              · rcases hs : p.startMeeting user channel "" (startMeetingInput args.Command) false
                    args.RootId with es | m <;>
                  simp [startMeetingError, newCalls, ephemeralPosts]
      · revert hfail
        unfold executeStartMeetingCommand
        rcases hu : p.GetUser args.UserId with eu | user
        · simp [startMeetingError]
        · rcases hc : p.GetChannel args.ChannelId with ec | channel
          · simp [startMeetingError]
          · rcases hl : p.getUserConfig w.store args.UserId with el | cfg
            · simp [hl, startMeetingError]
            · simp only [World.log_store, hl]
              split_ifs
              · rcases ha : p.askMeetingType user channel args.RootId with _ | ea <;>
                  simp [startMeetingError]
              · rcases hs : p.startMeeting user channel "" (startMeetingInput args.Command) false
                    args.RootId with es | m <;>
                  simp [startMeetingError]
    · obtain ⟨⟨d, hd⟩, hposts⟩ := executeStartMeetingCommand_failure p w args hfail
      exact ⟨hposts, Or.inr ⟨d, hd⟩⟩

end Jitsi
